import Mathlib

/-!
Verification of the SMS-driven lead-management core (command parsing,
lead resolution, command execution, webhook idempotency) against its
natural-language specification.

The JavaScript sources are shallowly embedded:

* strings are `List Char` (`Str`); JS `toLowerCase`, `trim`, `includes`
  are `lowerStr`, `jsTrim`, `jsIncludes`;
* each regular expression of `geminiService.fallbackParse` is embedded as
  a dedicated matching function that follows the JS engine's
  leftmost-match and greedy/lazy backtracking rules for that particular
  pattern (each function's doc comment quotes the source pattern and, where
  backtracking can arise, explains why the implementation is equivalent);
* MongoDB collections are Lean lists threaded through the service
  functions; a thrown JS `Error` is an `Except.error` carrying the error
  message string, which is what the controller's `catch` blocks inspect;
* dates are modelled as day counters (`Db.now`), `Date.now()`-based
  placeholders use the same counter.
-/

set_option maxHeartbeats 2000000

namespace Crm

/-- JS strings, embedded as lists of characters. -/
abbrev Str := List Char

/-- JS `String.prototype.toLowerCase` (the repo only relies on ASCII case folding). -/
def lowerStr (s : Str) : Str := s.map Char.toLower

/-- The JS whitespace class `\s`, restricted to the ASCII whitespace
characters that can occur in SMS bodies. -/
def isWs (c : Char) : Bool :=
  c == ' ' || c == '\t' || c == '\n' || c == '\r' || c == '\x0b' || c == '\x0c'

/-- JS `String.prototype.trim`. -/
def jsTrim (s : Str) : Str :=
  ((s.dropWhile (isWs ·)).reverse.dropWhile (isWs ·)).reverse

/-- `pat` is a prefix of the second argument (decidable, by character
equality). -/
def hasPrefixB : Str → Str → Bool
  | [], _ => true
  | _ :: _, [] => false
  | p :: ps, c :: cs => p == c && hasPrefixB ps cs

/-- `pat` occurs as a contiguous substring of the second argument. -/
def isSubstr (pat : Str) : Str → Bool
  | [] => pat.isEmpty
  | c :: cs => hasPrefixB pat (c :: cs) || isSubstr pat cs

/-- JS `hay.includes(pat)`. -/
def jsIncludes (hay pat : Str) : Bool := isSubstr pat hay

/-- JS `parseInt` on a non-empty digit string. -/
def digitsToNat (l : Str) : Nat :=
  l.foldl (fun acc c => acc * 10 + (c.toNat - '0'.toNat)) 0

/-- Decimal rendering of a number (used for MongoDB object ids and dates,
which the model keeps as numbers rendered into reply strings). -/
def natToStr (n : Nat) : Str := Nat.toDigits 10 n

/-- Case-insensitive literal prefix match (regexes with the `i` flag);
returns the rest of the input after the literal. -/
def stripPrefixCI : Str → Str → Option Str
  | [], l => some l
  | _ :: _, [] => none
  | p :: ps, c :: cs => if p.toLower == c.toLower then stripPrefixCI ps cs else none

/-- Case-sensitive literal prefix match (regexes without the `i` flag). -/
def stripPrefixCS (p l : Str) : Option Str :=
  if hasPrefixB p l then some (l.drop p.length) else none

/-- `\s+` followed by a pattern that cannot start with whitespace: the
greedy run is exact, so consume the maximal whitespace run (at least one
character). -/
def ws1 : Str → Option Str
  | c :: cs => if isWs c then some (cs.dropWhile (isWs ·)) else none
  | [] => none

/-- `\d+` followed by a non-digit pattern: the greedy run is exact.
Returns the digit run and the rest. -/
def digits1 (l : Str) : Option (Str × Str) :=
  let d := l.takeWhile (·.isDigit)
  if d.isEmpty then none else some (d, l.drop d.length)

/-- Leftmost-match search: a JS regex match tries every start position
from the left and succeeds at the first position where the whole pattern
matches, which is exactly a left-to-right scan over suffixes. -/
def scanFirst (f : Str → Option α) : Str → Option α
  | [] => f []
  | c :: cs =>
    match f (c :: cs) with
    | some r => some r
    | none => scanFirst f cs

/-- Character class `[a-zA-Z0-9._%+-]` (email local part). -/
def isLocalChar (c : Char) : Bool :=
  c.isAlphanum || c == '.' || c == '_' || c == '%' || c == '+' || c == '-'

/-- Character class `[a-zA-Z0-9.-]` (email domain part). -/
def isDomainChar (c : Char) : Bool := c.isAlphanum || c == '.' || c == '-'

/-- Backtracking split of the maximal domain-class run for the regex tail
`[a-zA-Z0-9.-]+\.[a-zA-Z]{2,}`: the `+` gives characters back one at a
time, so the largest split index `j` with `dom[j] = '.'` followed by at
least two letters wins; the `{2,}` then greedily takes the maximal letter
run (nothing follows it in the pattern). -/
def emailDomSplit (dom : Str) : Option (Str × Str) :=
  (List.range dom.length).reverse.findSome? fun j =>
    if 1 ≤ j then
      match dom.get? j, dom.get? (j+1), dom.get? (j+2) with
      | some '.', some c1, some c2 =>
        if c1.isAlpha && c2.isAlpha then
          some (dom.take j, (dom.drop (j+1)).takeWhile (·.isAlpha))
        else none
      | _, _, _ => none
    else none

/-- The email pattern `[a-zA-Z0-9._%+-]+@[a-zA-Z0-9.-]+\.[a-zA-Z]{2,}`
matched at the start of the input; returns the matched text and the rest.
The local-part `+` never backtracks usefully because `@` is not in its
class, so the maximal run must be followed directly by `@`. -/
def tryEmail (l : Str) : Option (Str × Str) :=
  let loc := l.takeWhile (isLocalChar ·)
  if loc.isEmpty then none
  else
    match l.drop loc.length with
    | '@' :: rest =>
      let dom := rest.takeWhile (isDomainChar ·)
      if dom.isEmpty then none
      else
        match emailDomSplit dom with
        | some (pre, tld) =>
          let cap := loc ++ '@' :: (pre ++ '.' :: tld)
          some (cap, l.drop cap.length)
        | none => none
    | _ => none

/-- First match of the bare email regex
`/([a-zA-Z0-9._%+-]+@[a-zA-Z0-9.-]+\.[a-zA-Z]{2,})/` anywhere in the
message. -/
def emailFirstMatch (msg : Str) : Option Str := (scanFirst tryEmail msg).map (·.1)

/-- Anchored test `/^[a-zA-Z0-9._%+-]+@[a-zA-Z0-9.-]+\.[a-zA-Z]{2,}$/`:
the match must start at the beginning and the greedy trailing letter run
must consume the whole rest of the string (see `emailDomSplit`: the
largest valid split is the only one whose letter run can reach the end). -/
def isEmailAnchored (l : Str) : Bool :=
  match tryEmail l with
  | some (_, []) => true
  | _ => false

/-- `\d{n}`: exactly `n` digits. -/
def takeDigits : Nat → Str → Option (Str × Str)
  | 0, l => some ([], l)
  | n + 1, c :: cs =>
    if c.isDigit then (takeDigits n cs).map (fun p => (c :: p.1, p.2)) else none
  | _ + 1, [] => none

/-- `[-.]?`: since the following pattern piece is always `\d`, consuming a
present separator is the only viable alternative, so the optional is
deterministic. -/
def optSep : Str → Str × Str
  | c :: cs => if c == '-' || c == '.' then ([c], cs) else ([], c :: cs)
  | [] => ([], [])

/-- The phone pattern `\d{3}[-.]?\d{3}[-.]?\d{4}` matched at the start of
the input; returns the matched text and the rest. -/
def tryPhone (l : Str) : Option (Str × Str) :=
  takeDigits 3 l >>= fun (d1, r1) =>
  let (s1, r2) := optSep r1
  takeDigits 3 r2 >>= fun (d2, r3) =>
  let (s2, r4) := optSep r3
  takeDigits 4 r4 >>= fun (d3, r5) =>
  some (d1 ++ s1 ++ d2 ++ s2 ++ d3, r5)

/-- First match of `/(\d{3}[-.]?\d{3}[-.]?\d{4})/` anywhere in the message. -/
def phoneFirstMatch (msg : Str) : Option Str := (scanFirst tryPhone msg).map (·.1)

/-- Anchored test `/^\d{3}[-.]?\d{3}[-.]?\d{4}$/`. -/
def isPhoneAnchored (l : Str) : Bool :=
  match tryPhone l with
  | some (_, []) => true
  | _ => false

/-- Lower-case hexadecimal digit (`[a-f0-9]`). -/
def isHexLower (c : Char) : Bool := c.isDigit || ('a' ≤ c && c ≤ 'f')

/-- `[a-f0-9]{24}` matched at the start of the input. -/
def tryHex24 (l : Str) : Option (Str × Str) :=
  let t := l.take 24
  if t.length == 24 && t.all (isHexLower ·) then some (t, l.drop 24) else none

/-- First match of `/([a-f0-9]{24})/` anywhere in the message (MongoDB id). -/
def hex24Search (msg : Str) : Option Str := (scanFirst tryHex24 msg).map (·.1)

/-- Anchored test `/^[a-f0-9]{24}$/`. -/
def isHex24Anchored (l : Str) : Bool := l.length == 24 && l.all (isHexLower ·)

/-- Ordered case-insensitive literal alternation; returns the matched
input slice (the capture keeps the input's own casing) and the rest.
JS tries the alternatives left to right. -/
def matchAltCI : List Str → Str → Option (Str × Str)
  | [], _ => none
  | p :: ps, l =>
    match stripPrefixCI p l with
    | some rest => some (l.take p.length, rest)
    | none => matchAltCI ps l

/-- The lead status enumeration, in the order it appears in the source
alternation `(new|contacted|qualified|proposal_sent|closed|lost)`. -/
def statusLits : List Str :=
  ["new".toList, "contacted".toList, "qualified".toList,
   "proposal_sent".toList, "closed".toList, "lost".toList]

/-- `status\s+(new|contacted|qualified|proposal_sent|closed|lost)` matched
at the start of the input (create-lead branch, no optional `to`). -/
def tryStatusCreate (l : Str) : Option Str :=
  stripPrefixCI ("status".toList) l >>= ws1 >>= fun r =>
  (matchAltCI statusLits r).map (·.1)

/-- First match of `/status\s+(new|contacted|qualified|proposal_sent|closed|lost)/i`. -/
def statusFirstMatch (msg : Str) : Option Str := scanFirst tryStatusCreate msg

/-- `(days?|weeks?)`: `days?` is tried before `weeks?`, and the optional
`s` is greedy; the capture is the matched input slice. -/
def matchUnit (l : Str) : Option Str :=
  (matchAltCI ["days".toList, "day".toList, "weeks".toList, "week".toList] l).map (·.1)

/-- `follow\s+up\s+in\s+(\d+)\s+(days?|weeks?)` matched at the start of
the input; yields the parsed number and the unit capture. -/
def tryFollowUpClause (l : Str) : Option (Nat × Str) :=
  stripPrefixCI ("follow".toList) l >>= ws1 >>= fun r1 =>
  stripPrefixCI ("up".toList) r1 >>= ws1 >>= fun r2 =>
  stripPrefixCI ("in".toList) r2 >>= ws1 >>= fun r3 =>
  digits1 r3 >>= fun (ds, r4) =>
  ws1 r4 >>= fun r5 =>
  (matchUnit r5).map fun u => (digitsToNat ds, u)

/-- First match of `/follow\s+up\s+in\s+(\d+)\s+(days?|weeks?)/i`
(create-lead branch follow-up clause). -/
def followUpClauseMatch (msg : Str) : Option (Nat × Str) := scanFirst tryFollowUpClause msg

/-- Character class `[:\s]`. -/
def isColonWs (c : Char) : Bool := c == ':' || isWs c

/-- Tail `[:\s]+([^,]+)` of the create-lead name regex, with JS greedy
backtracking: the `[:\s]+` run is taken maximally (length `m`); if the
next character exists and is not a comma the capture is the maximal
non-comma run from there; otherwise the `+` gives one character back
(possible only when `m ≥ 2`, since `+` needs at least one), and `[^,]+`
then matches exactly that single `[:\s]` character (the following
character is a comma or the end). -/
def nameTail (l : Str) : Option Str :=
  let m := l.takeWhile (isColonWs ·)
  let rest := l.drop m.length
  match m, rest with
  | [], _ => none
  | _ :: _, c :: cs =>
    if c == ',' then (if 2 ≤ m.length then some [m.getLast?.getD ' '] else none)
    else some ((c :: cs).takeWhile (· != ','))
  | _ :: _, [] => if 2 ≤ m.length then some [m.getLast?.getD ' '] else none

/-- `(?:add|create)\s+lead[:\s]+([^,]+)` matched at the start of the
input (`add` is tried before `create`). -/
def tryCreateName (l : Str) : Option Str :=
  (match stripPrefixCI ("add".toList) l with
   | some r => some r
   | none => stripPrefixCI ("create".toList) l) >>= ws1 >>= fun r2 =>
  stripPrefixCI ("lead".toList) r2 >>= fun r3 => nameTail r3

/-- First match of `/(?:add|create)\s+lead[:\s]+([^,]+)/i`. -/
def createNameMatch (msg : Str) : Option Str := scanFirst tryCreateName msg

/-- Character class `[^,\s]` (an identifier token character). -/
def isTokChar (c : Char) : Bool := !(c == ',') && !(isWs c)

/-- `[^,\s]+`: one maximal token (the class excludes whitespace, so the
greedy run is exact against the following `\s`). -/
def tok1 (l : Str) : Option (Str × Str) :=
  let t := l.takeWhile (isTokChar ·)
  if t.isEmpty then none else some (t, l.drop t.length)

/-- Greedy `(?:\s+[^,\s]+)*` with nothing after it: keep appending
whitespace-separated tokens while possible; the capture keeps the
original separator characters. -/
def greedyTokensLoop : Nat → Str → Str → Str
  | 0, acc, _ => acc
  | fuel + 1, acc, l =>
    let w := l.takeWhile (isWs ·)
    if w.isEmpty then acc
    else
      match tok1 (l.drop w.length) with
      | some (t, r) => greedyTokensLoop fuel (acc ++ w ++ t) r
      | none => acc

/-- `([^,\s]+(?:\s+[^,\s]+)*)`: at least one token, then greedily as many
whitespace-separated tokens as possible. -/
def greedyTokens (l : Str) : Option Str :=
  match tok1 l with
  | some (t, r) => some (greedyTokensLoop r.length t r)
  | none => none

/-- The keyword lookahead `(?:email|phone|status)` of the update-lead
identifier regex: a case-insensitive literal, matching a prefix of the
remaining text (the regex has nothing after it). -/
def updKeyword (l : Str) : Bool :=
  (stripPrefixCI ("email".toList) l).isSome ||
  (stripPrefixCI ("phone".toList) l).isSome ||
  (stripPrefixCI ("status".toList) l).isSome

/-- Lazy `(?:\s+[^,\s]+)*?(?:\s+(?:email|phone|status))`: after each token
the lazy star first tries to finish by matching whitespace and a field
keyword, and only extends with one more token when that fails. -/
def lazyTokensLoop : Nat → Str → Str → Option Str
  | 0, _, _ => none
  | fuel + 1, acc, l =>
    let w := l.takeWhile (isWs ·)
    if w.isEmpty then none
    else
      let r := l.drop w.length
      if updKeyword r then some acc
      else
        match tok1 r with
        | some (t, r2) => lazyTokensLoop fuel (acc ++ w ++ t) r2
        | none => none

/-- `update\s+lead\s+([^,\s]+(?:\s+[^,\s]+)*?)(?:\s+(?:email|phone|status))`
matched at the start of the input. -/
def tryUpdateLazy (l : Str) : Option Str :=
  stripPrefixCI ("update".toList) l >>= ws1 >>= fun r1 =>
  stripPrefixCI ("lead".toList) r1 >>= ws1 >>= fun r2 =>
  tok1 r2 >>= fun (t1, r3) => lazyTokensLoop (r3.length + 1) t1 r3

/-- First match of the lazy update-lead identifier regex
`/update\s+lead\s+([^,\s]+(?:\s+[^,\s]+)*?)(?:\s+(?:email|phone|status))/i`. -/
def updateLeadPatternMatch (msg : Str) : Option Str := scanFirst tryUpdateLazy msg

/-- `update\s+lead\s+([^,\s]+(?:\s+[^,\s]+)*)` matched at the start of
the input (the greedy fallback used when the lazy pattern fails). -/
def tryUpdateGreedy (l : Str) : Option Str :=
  stripPrefixCI ("update".toList) l >>= ws1 >>= fun r1 =>
  stripPrefixCI ("lead".toList) r1 >>= ws1 >>= fun r2 =>
  greedyTokens r2

/-- First match of `/update\s+lead\s+([^,\s]+(?:\s+[^,\s]+)*)/i`. -/
def updateNameMatch (msg : Str) : Option Str := scanFirst tryUpdateGreedy msg

/-- `<keyword>\s+(?:to\s+)?(<value>)`: the optional `to\s+` is greedy, so
the variant that consumes it is tried first. `val` matches the value
pattern at the current position, returning capture and rest. -/
def tryKeyedValue (key : Str) (val : Str → Option (Str × Str)) (l : Str) : Option Str :=
  stripPrefixCI key l >>= ws1 >>= fun r =>
  match stripPrefixCI ("to".toList) r >>= ws1 >>= fun r2 => val r2 with
  | some (v, _) => some v
  | none => (val r).map (·.1)

/-- First match of `/email\s+(?:to\s+)?(<email pattern>)/i`. -/
def emailUpdateMatch (msg : Str) : Option Str :=
  scanFirst (tryKeyedValue ("email".toList) tryEmail) msg

/-- First match of `/phone\s+(?:to\s+)?(\d{3}[-.]?\d{3}[-.]?\d{4})/i`. -/
def phoneUpdateMatch (msg : Str) : Option Str :=
  scanFirst (tryKeyedValue ("phone".toList) tryPhone) msg

/-- First match of `/status\s+(?:to\s+)?(new|contacted|qualified|proposal_sent|closed|lost)/i`. -/
def statusUpdateMatch (msg : Str) : Option Str :=
  scanFirst (tryKeyedValue ("status".toList) (matchAltCI statusLits)) msg

/-- `follow\s+up\s+([^,\s]+(?:\s+[^,\s]+)*)` matched at the start of the
input (set-followup name fallback). -/
def tryFollowName (l : Str) : Option Str :=
  stripPrefixCI ("follow".toList) l >>= ws1 >>= fun r1 =>
  stripPrefixCI ("up".toList) r1 >>= ws1 >>= fun r2 => greedyTokens r2

/-- First match of `/follow\s+up\s+([^,\s]+(?:\s+[^,\s]+)*)/i`. -/
def followNameMatch (msg : Str) : Option Str := scanFirst tryFollowName msg

/-- `(\d+)\s+days?` matched at the start of the input. This regex has no
`i` flag, so `day` is case-sensitive; only the digits are captured. -/
def tryDays (l : Str) : Option Nat :=
  digits1 l >>= fun (ds, r) => ws1 r >>= fun r2 =>
  if (stripPrefixCS ("day".toList) r2).isSome then some (digitsToNat ds) else none

/-- First match of `/(\d+)\s+days?/` (set-followup day count). -/
def daysMatch (msg : Str) : Option Nat := scanFirst tryDays msg

/-- The lazy gap `.*?` (no newlines) followed by `lead\s+` and the greedy
token capture, for the get-status name regex: advance one non-newline
character at a time, trying to match `lead\s+<tokens>` at each point. -/
def statusShowTail : Nat → Str → Option Str
  | 0, _ => none
  | fuel + 1, l =>
    match stripPrefixCI ("lead".toList) l >>= ws1 >>= greedyTokens with
    | some cap => some cap
    | none =>
      match l with
      | [] => none
      | c :: cs => if c == '\n' then none else statusShowTail fuel cs

/-- `(?:status|show).*?lead\s+([^,\s]+(?:\s+[^,\s]+)*)` matched at the
start of the input (`status` is tried before `show`). -/
def tryStatusShow (l : Str) : Option Str :=
  (match stripPrefixCI ("status".toList) l with
   | some r => some r
   | none => stripPrefixCI ("show".toList) l) >>= fun r =>
  statusShowTail (r.length + 1) r

/-- First match of `/(?:status|show).*?lead\s+([^,\s]+(?:\s+[^,\s]+)*)/i`. -/
def statusShowNameMatch (msg : Str) : Option Str := scanFirst tryStatusShow msg

/-- `to\s+([^,]+)` matched at the start of the input (booking-link
identifier). The `\s+`/`[^,]+` interaction backtracks exactly like
`nameTail` (whitespace is in `[^,]`). -/
def tryToPhrase (l : Str) : Option Str :=
  stripPrefixCI ("to".toList) l >>= fun r =>
  let w := r.takeWhile (isWs ·)
  let rest := r.drop w.length
  match w, rest with
  | [], _ => none
  | _ :: _, c :: cs =>
    if c == ',' then (if 2 ≤ w.length then some [w.getLast?.getD ' '] else none)
    else some ((c :: cs).takeWhile (· != ','))
  | _ :: _, [] => if 2 ≤ w.length then some [w.getLast?.getD ' '] else none

/-- First match of `/to\s+([^,]+)/i`. -/
def bookingToMatch (msg : Str) : Option Str := scanFirst tryToPhrase msg

/-- `to\s+([^,\s]+)` matched at the start of the input (review-link
identifier: a single token). -/
def tryToToken (l : Str) : Option Str :=
  stripPrefixCI ("to".toList) l >>= ws1 >>= fun r => (tok1 r).map (·.1)

/-- First match of `/to\s+([^,\s]+)/i`. -/
def reviewToMatch (msg : Str) : Option Str := scanFirst tryToToken msg

/-- The identifier kinds of the lead resolver (`identifierType` strings
`'id' | 'email' | 'phone' | 'name'` in the source). -/
inductive IdType
  | id
  | email
  | phone
  | name
deriving DecidableEq, Repr

/-- Payload of a parsed `create_lead` command (`data` object built by
`fallbackParse`): `email`/`phone` are `undefined` when their regex found
nothing, `status` defaults to `'new'`. -/
structure CreateData where
  name : Str
  email : Option Str
  phone : Option Str
  status : Str
deriving DecidableEq, Repr

/-- `updateFields` object of a parsed `update_lead` command; a field is
present exactly when its shape-checking regex matched. Key insertion
order in the source is email, phone, status. -/
structure UpdateFields where
  email : Option Str
  phone : Option Str
  status : Option Str
deriving DecidableEq, Repr

/-- `list_leads` filter: `{filter:'all'}` or `{filter:'status', status}`. -/
inductive Filter
  | all
  | byStatus (s : Str)
deriving DecidableEq, Repr

/-- A parsed command object (the `{command, data, followUp}` shapes
produced by the parser and consumed by `smsController.executeCommand`).
`unknown` is the command name the AI-assisted parser can produce; it is
handled by the controller's `default` branch. -/
inductive Cmd
  | help
  | list_leads (f : Filter)
  | create_lead (d : CreateData) (followUpDays : Option Nat)
  | update_lead (leadIdentifier : Str) (ty : IdType) (fields : UpdateFields)
  | set_followup (leadIdentifier : Str) (ty : IdType) (days : Nat)
  | get_lead_status (leadIdentifier : Str) (ty : IdType)
  | send_booking_link (leadIdentifier : Str) (ty : IdType)
  | send_review_link (leadIdentifier : Str) (ty : IdType)
  | unknown
deriving DecidableEq, Repr

/-- The `command` string of a parsed command (used for the processed
message ledger). -/
def cmdName : Cmd → Str
  | .help => "help".toList
  | .list_leads _ => "list_leads".toList
  | .create_lead _ _ => "create_lead".toList
  | .update_lead _ _ _ => "update_lead".toList
  | .set_followup _ _ _ => "set_followup".toList
  | .get_lead_status _ _ => "get_lead_status".toList
  | .send_booking_link _ _ => "send_booking_link".toList
  | .send_review_link _ _ => "send_review_link".toList
  | .unknown => "unknown".toList

/-- Create-lead branch of `fallbackParse` (entered when the lower-cased
message contains `add` or `create`); always returns a command. The
extracted name falls back to the literal `'Unknown'` when the name regex
found no match; a matched name is trimmed. The follow-up day count is
multiplied by 7 when the captured unit contains `week`. -/
def createCmd (message : Str) : Cmd :=
  let nameMatch := createNameMatch message
  let followUp := (followUpClauseMatch message).map fun p =>
    if jsIncludes (lowerStr p.2) ("week".toList) then p.1 * 7 else p.1
  Cmd.create_lead
    { name := match nameMatch with
        | some s => jsTrim s
        | none => "Unknown".toList
      email := emailFirstMatch message
      phone := phoneFirstMatch message
      status := match statusFirstMatch message with
        | some s => lowerStr s
        | none => "new".toList }
    followUp

/-- The `updateFields` object extracted by the update-lead branch: a
field key is set exactly when its shape-checking regex matched; the
status value is lower-cased. -/
def updFieldsOf (message : Str) : UpdateFields :=
  { email := emailUpdateMatch message
    phone := phoneUpdateMatch message
    status := (statusUpdateMatch message).map lowerStr }

/-- Update-lead branch of `fallbackParse` (entered when the lower-cased
message contains `update`): the lazy identifier regex is tried first and
its capture classified (anchored email, then phone, then MongoDB id,
else name); if it fails, the greedy name regex is tried with type
`name`; if both fail the branch produces nothing and control falls
through to the later branches. -/
def updateBranch (message : Str) : Option Cmd :=
  match updateLeadPatternMatch message with
  | some cap =>
    let identifier := jsTrim cap
    let ty :=
      if isEmailAnchored identifier then IdType.email
      else if isPhoneAnchored identifier then IdType.phone
      else if isHex24Anchored identifier then IdType.id
      else IdType.name
    some (.update_lead identifier ty (updFieldsOf message))
  | none =>
    match updateNameMatch message with
    | some cap => some (.update_lead (jsTrim cap) IdType.name (updFieldsOf message))
    | none => none

/-- Identifier extraction shared shape of the set-followup branch:
first email anywhere, else first phone anywhere, else first MongoDB id
anywhere, else the branch's name regex. -/
def followupIdentifier (message : Str) : Option (Str × IdType) :=
  match emailFirstMatch message with
  | some e => some (e, IdType.email)
  | none =>
    match phoneFirstMatch message with
    | some p => some (p, IdType.phone)
    | none =>
      match hex24Search message with
      | some i => some (i, IdType.id)
      | none => (followNameMatch message).map fun n => (n, IdType.name)

/-- Set-followup branch of `fallbackParse` (entered when the lower-cased
message contains `follow` and `up`); the day count defaults to 1 when
the `(\d+)\s+days?` regex finds nothing. Falls through when no
identifier is found. -/
def followupBranch (message : Str) : Option Cmd :=
  let days := (daysMatch message).getD 1
  (followupIdentifier message).map fun p => .set_followup p.1 p.2 days

/-- Identifier extraction of the get-status branch (same email/phone/id
search, name via the `(?:status|show).*?lead\s+...` regex). -/
def statusIdentifier (message : Str) : Option (Str × IdType) :=
  match emailFirstMatch message with
  | some e => some (e, IdType.email)
  | none =>
    match phoneFirstMatch message with
    | some p => some (p, IdType.phone)
    | none =>
      match hex24Search message with
      | some i => some (i, IdType.id)
      | none => (statusShowNameMatch message).map fun n => (n, IdType.name)

/-- Get-status branch of `fallbackParse` (entered when the lower-cased
message contains `status` or `show`); falls through when no identifier
is found. -/
def statusBranch (message : Str) : Option Cmd :=
  (statusIdentifier message).map fun p => .get_lead_status p.1 p.2

/-- Booking-link branch of `fallbackParse`: the phrase after `to` is
trimmed (falling back to `'Unknown'`) and classified as anchored email,
anchored phone, else name. -/
def bookingCmd (message : Str) : Cmd :=
  let identifier := match bookingToMatch message with
    | some c => jsTrim c
    | none => "Unknown".toList
  let ty :=
    if isEmailAnchored identifier then IdType.email
    else if isPhoneAnchored identifier then IdType.phone
    else IdType.name
  .send_booking_link identifier ty

/-- Review-link branch of `fallbackParse`: a single token after `to`
(no trim), always classified as a name. -/
def reviewCmd (message : Str) : Cmd :=
  .send_review_link ((reviewToMatch message).getD ("Unknown".toList)) IdType.name

/-- `geminiService.fallbackParse`: the regex command classifier. The
branch triggers are substring tests on the lower-cased message, checked
in source order (help, list, create, update, follow-up, status, booking
link, review link); the final fallback returns the `help` command. The
update/follow-up/status branches only return when they extracted an
identifier, otherwise control falls through to the later branches
exactly as in the source. -/
def fallbackParse (message : Str) : Cmd :=
  let lm := lowerStr message
  if jsIncludes lm ("help".toList) then .help
  else if jsIncludes lm ("list".toList) && jsIncludes lm ("lead".toList) then
    (if jsIncludes lm ("qualified".toList) then .list_leads (.byStatus ("qualified".toList))
     else .list_leads .all)
  else if jsIncludes lm ("add".toList) || jsIncludes lm ("create".toList) then
    createCmd message
  else
    match (if jsIncludes lm ("update".toList) then updateBranch message else none) with
    | some c => c
    | none =>
      match
        (if jsIncludes lm ("follow".toList) && jsIncludes lm ("up".toList) then
          followupBranch message
         else none) with
      | some c => c
      | none =>
        match
          (if jsIncludes lm ("status".toList) || jsIncludes lm ("show".toList) then
            statusBranch message
           else none) with
        | some c => c
        | none =>
          if jsIncludes lm ("booking".toList) && jsIncludes lm ("link".toList) then
            bookingCmd message
          else if jsIncludes lm ("review".toList) && jsIncludes lm ("link".toList) then
            reviewCmd message
          else .help

/-- A follow-up entry of a lead (`followUps` array element); the
scheduled date is a day counter. -/
structure FollowUpE where
  scheduledDate : Nat
  notes : Str
deriving DecidableEq, Repr

/-- A lead record (`Lead` mongoose model, the fields the core reads and
writes). `lid` models the MongoDB `_id`, allocated from `Db.nextId` and
rendered with `natToStr` where the source calls `_id.toString()`. -/
structure Lead where
  lid : Nat
  name : Str
  email : Option Str
  phone : Option Str
  status : Str
  followUps : List FollowUpE
  agentId : Nat
  createdAt : Nat
deriving DecidableEq, Repr

/-- An agent record (`Agent` mongoose model); `phoneNumber` carries a
unique index (`unique: true` in the schema). -/
structure AgentR where
  aid : Nat
  name : Str
  phoneNumber : Str
  email : Str
  password : Str
deriving DecidableEq, Repr

/-- The record store plus ambient state: agent and lead collections, the
id allocator, the current day (`Date.now()`/`new Date()`), the deferred
SMS queue (`queueService.scheduleSMS`, kept as phone/delay-days pairs)
and the immediate outbound SMS log (`twilioService.sendSMS`, kept as
phone/body pairs). -/
structure Db where
  agents : List AgentR
  leads : List Lead
  nextId : Nat
  now : Nat
  scheduled : List (Str × Nat)
  outbox : List (Str × Str)
deriving DecidableEq, Repr

/-- The MongoDB duplicate-key error message raised when an insert
violates the unique index on `Agent.phoneNumber`. -/
def dupKeyMsg : Str := "E11000 duplicate key error".toList

/-- The placeholder email given to auto-provisioned agents
(`sms-agent-${Date.now()}@example.com`). -/
def agentPlaceholderEmail (db : Db) : Str :=
  "sms-agent-".toList ++ natToStr db.now ++ "@example.com".toList

/-- The store-level `Agent.create` call: the unique index on
`phoneNumber` makes the insert atomically fail with a duplicate-key
error when an agent with that phone already exists. -/
def agentCreate (agentPhone : Str) (db : Db) : Except Str AgentR × Db :=
  if db.agents.any (fun a => a.phoneNumber == agentPhone) then (.error dupKeyMsg, db)
  else
    let a : AgentR :=
      { aid := db.nextId, name := "SMS Agent".toList, phoneNumber := agentPhone
        email := agentPlaceholderEmail db, password := "temp123".toList }
    (.ok a, { db with agents := db.agents ++ [a], nextId := db.nextId + 1 })

/-- `leadService.findOrCreateAgent`: a `findOne` on the phone number
followed, when nothing was found, by a separate `Agent.create`. -/
def findOrCreateAgent (agentPhone : Str) (db : Db) : Except Str AgentR × Db :=
  match db.agents.find? (fun a => a.phoneNumber == agentPhone) with
  | some a => (.ok a, db)
  | none => agentCreate agentPhone db

/-- JS `identifier.replace(/\D/g, '')`: strip every non-digit. -/
def digitsOf (s : Str) : Str := s.filter (·.isDigit)

/-- The separator class `[-\s.]` of the flexible phone regex. -/
def isFlexSep (c : Char) : Bool := c == '-' || isWs c || c == '.'

/-- Continuation of the flexible phone pattern: `[-\s.]*` then the next
digit, repeated. Digits are not separators, so each greedy separator run
is exact. -/
def flexCont : Str → Str → Bool
  | [], _ => true
  | d :: ds, l =>
    match l.dropWhile (isFlexSep ·) with
    | c :: cs => d == c && flexCont ds cs
    | [] => false

/-- The flexible phone pattern `d₁[-\s.]*d₂[-\s.]*…dₙ` (built in the
source by `digits.split('').join('[-\\s.]*')`) matched at the start of
the input. An empty digit list is the empty pattern, which matches. -/
def flexHere : Str → Str → Bool
  | [], _ => true
  | d :: ds, l =>
    match l with
    | c :: cs => d == c && flexCont ds cs
    | [] => false

/-- Unanchored (`$regex`) test of the flexible phone pattern against a
stored phone string. -/
def flexMatch (ds : Str) : Str → Bool
  | [] => flexHere ds []
  | c :: cs => flexHere ds (c :: cs) || flexMatch ds cs

/-- The per-lead query predicate of the lead lookups, scoped to the
owning agent. `flex` selects the phone semantics: `true` is
`findLeadByIdentifier`'s flexible separator-tolerant regex, `false` is
the `updateLead`/`setFollowUp` variant that strips non-digits from the
query only and requires them to occur contiguously in the stored phone.
Email and name use the case-insensitive substring semantics of
`new RegExp(identifier, 'i')` (faithful for identifiers free of regex
metacharacters, which is what the parser produces for these types). -/
def leadMatches (flex : Bool) (ident : Str) (ty : IdType) (agentId : Nat) (L : Lead) : Bool :=
  L.agentId == agentId &&
  match ty with
  | .id => natToStr L.lid == ident
  | .email =>
    match L.email with
    | some e => jsIncludes (lowerStr e) (lowerStr ident)
    | none => false
  | .phone =>
    match L.phone with
    | some p => if flex then flexMatch (digitsOf ident) p else jsIncludes p (digitsOf ident)
    | none => false
  | .name => jsIncludes (lowerStr L.name) (lowerStr ident)

/-- The human identifier-type label used in the multiple-records error. -/
def labelOf : IdType → Str
  | .id => "ID".toList
  | .email => "email".toList
  | .phone => "phone number".toList
  | .name => "name".toList

/-- Message of the error thrown on a zero-match lookup. -/
def notFoundMsg (ident : Str) : Str := "Lead not found: ".toList ++ ident

/-- The user-facing part of the multiple-records error message. -/
def youHaveMsg (count : Nat) (ty : IdType) (ident : Str) : Str :=
  "You have ".toList ++ natToStr count ++ " records with the same ".toList ++
  labelOf ty ++ ": \"".toList ++ ident ++
  "\". Please use more specific information like email or phone number.".toList

/-- Message of the error thrown on a multi-match lookup
(`MULTIPLE_RECORDS: You have ${count} records with the same …`). -/
def multipleMsg (count : Nat) (ty : IdType) (ident : Str) : Str :=
  "MULTIPLE_RECORDS: ".toList ++ youHaveMsg count ty ident

/-- `leadService.findLeadByIdentifier`: resolve the owning agent, filter
the leads with the flexible query, then fail on zero or multiple
matches and return the single match otherwise. -/
def findLeadByIdentifier (ident : Str) (ty : IdType) (agentPhone : Str) (db : Db) :
    Except Str Lead × Db :=
  match findOrCreateAgent agentPhone db with
  | (.error e, db') => (.error e, db')
  | (.ok agent, db') =>
    let ms := db'.leads.filter (leadMatches true ident ty agent.aid)
    if ms.isEmpty then (.error (notFoundMsg ident), db')
    else if 2 ≤ ms.length then (.error (multipleMsg ms.length ty ident), db')
    else (ms.head?.elim (.error (notFoundMsg ident)) .ok, db')

/-- `$set` of the update fields onto a lead (only supplied keys change). -/
def applyFields (f : UpdateFields) (L : Lead) : Lead :=
  { L with
    email := match f.email with | some v => some v | none => L.email
    phone := match f.phone with | some v => some v | none => L.phone
    status := match f.status with | some v => v | none => L.status }

/-- `findOneAndUpdate`: rewrite the first lead satisfying the predicate. -/
def updateFirst (p : Lead → Bool) (g : Lead → Lead) : List Lead → List Lead
  | [] => []
  | L :: ls => if p L then g L :: ls else L :: updateFirst p g ls

/-- `leadService.updateLead`: resolve the agent, run the duplicate check
with the contiguous-digits phone semantics, fail on zero/multiple
matches, else `findOneAndUpdate` with `$set` of the supplied fields and
return the updated lead. -/
def updateLead (ident : Str) (ty : IdType) (fields : UpdateFields) (agentPhone : Str)
    (db : Db) : Except Str Lead × Db :=
  match findOrCreateAgent agentPhone db with
  | (.error e, db') => (.error e, db')
  | (.ok agent, db') =>
    let q := leadMatches false ident ty agent.aid
    let ms := db'.leads.filter q
    if ms.isEmpty then (.error (notFoundMsg ident), db')
    else if 2 ≤ ms.length then (.error (multipleMsg ms.length ty ident), db')
    else
      match ms.head? with
      | some L0 =>
        (.ok (applyFields fields L0),
         { db' with leads := updateFirst q (applyFields fields) db'.leads })
      | none => (.error (notFoundMsg ident), db')

/-- The notes string stored with a follow-up entry. -/
def followUpNotes (days : Nat) : Str :=
  "Follow-up scheduled for ".toList ++ natToStr days ++ " days from now".toList

/-- `$push` of a new follow-up entry dated `today + days`. -/
def pushFollowUp (sched days : Nat) (L : Lead) : Lead :=
  { L with followUps := L.followUps ++ [{ scheduledDate := sched, notes := followUpNotes days }] }

/-- `leadService.setFollowUp`: resolve the agent, duplicate check with
the contiguous-digits phone semantics, fail on zero/multiple matches,
else `findOneAndUpdate` with `$push` of the follow-up entry. -/
def setFollowUp (ident : Str) (ty : IdType) (days : Nat) (agentPhone : Str) (db : Db) :
    Except Str Lead × Db :=
  match findOrCreateAgent agentPhone db with
  | (.error e, db') => (.error e, db')
  | (.ok agent, db') =>
    let q := leadMatches false ident ty agent.aid
    let ms := db'.leads.filter q
    if ms.isEmpty then (.error (notFoundMsg ident), db')
    else if 2 ≤ ms.length then (.error (multipleMsg ms.length ty ident), db')
    else
      match ms.head? with
      | some L0 =>
        (.ok (pushFollowUp (db'.now + days) days L0),
         { db' with leads := updateFirst q (pushFollowUp (db'.now + days) days) db'.leads })
      | none => (.error (notFoundMsg ident), db')

/-- `leadService.createLead`: resolve/auto-provision the agent and save
a new lead (mongoose fills `_id`, `followUps := []`, `createdAt`). -/
def createLead (d : CreateData) (agentPhone : Str) (db : Db) : Except Str Lead × Db :=
  match findOrCreateAgent agentPhone db with
  | (.error e, db') => (.error e, db')
  | (.ok agent, db') =>
    let L : Lead :=
      { lid := db'.nextId, name := d.name, email := d.email, phone := d.phone
        status := d.status, followUps := [], agentId := agent.aid, createdAt := db'.now }
    (.ok L, { db' with leads := db'.leads ++ [L], nextId := db'.nextId + 1 })

/-- Insertion step of the `createdAt`-descending sort. -/
def insertByCreatedDesc (L : Lead) : List Lead → List Lead
  | [] => [L]
  | M :: ms => if M.createdAt ≤ L.createdAt then L :: M :: ms else M :: insertByCreatedDesc L ms

/-- `sort({createdAt: -1})`. -/
def sortByCreatedDesc (ls : List Lead) : List Lead := ls.foldr insertByCreatedDesc []

/-- `leadService.listLeads`: agent scope, optional status filter, newest
first, `limit(10)`. -/
def listLeads (filter : Filter) (agentPhone : Str) (db : Db) : Except Str (List Lead) × Db :=
  match findOrCreateAgent agentPhone db with
  | (.error e, db') => (.error e, db')
  | (.ok agent, db') =>
    let q := db'.leads.filter fun L =>
      L.agentId == agent.aid &&
      (match filter with | .all => true | .byStatus s => L.status == s)
    (.ok ((sortByCreatedDesc q).take 10), db')

/-- External configuration read by the booking/review handlers
(`process.env.CALENDLY_LINK`, `process.env.GOOGLE_REVIEW_LINK`). -/
structure Config where
  calendlyLink : Option Str
  googleReviewLink : Option Str
deriving DecidableEq, Repr

/-- `!link || link.includes(placeholder)`. -/
def linkNotConfigured (link : Option Str) (placeholder : Str) : Bool :=
  match link with
  | none => true
  | some l => l.isEmpty || jsIncludes l placeholder

/-- JS `name.split(' ')[0]` (the lead's first name used in outbound
message bodies). -/
def firstWord (s : Str) : Str := s.takeWhile (· != ' ')

/-- Reply of `handleCreateLead` when the parsed data has no usable name. -/
def nameRequiredMsg : Str := "❌ Please provide a name for the new lead.".toList

/-- Reply of `handleUpdateLead` when no identifier was parsed. -/
def identRequiredUpdMsg : Str := "❌ Please provide a lead name or ID to update.".toList

/-- Reply of `handleUpdateLead` when `updateFields` is empty. -/
def fieldsRequiredMsg : Str := "❌ Please specify what fields to update.".toList

/-- Reply of `handleSetFollowUp` when no identifier was parsed. -/
def identRequiredFuMsg : Str := "❌ Please provide a lead name or ID for follow-up.".toList

/-- Reply of `handleSetFollowUp` when the day count is missing (falsy). -/
def daysRequiredMsg : Str := "❌ Please specify how many days from now for the follow-up.".toList

/-- Reply of `handleGetLeadStatus` when no identifier was parsed (the
one identifier-required reply without an emoji prefix). -/
def identRequiredStatusMsg : Str := "Please provide a lead name or ID to check status.".toList

/-- Reply of `handleListLeads` on an empty result set. -/
def noLeadsMsg : Str := "No leads found.".toList

/-- The fixed reply of the controller's `default` (unknown command) branch. -/
def unknownCmdMsg : Str := "Unknown command. Send \"help\" for available commands.".toList

/-- `getHelpMessage`. -/
def helpMessage : Str :=
  ("📋 SMS Commands:\n\n➕ Create: \"Add lead: John Doe...\"\n✏️ Update: \"Update lead John...\"" ++
   "\n📅 Follow-up: \"Follow up John in 3 days\"\n🔗 Booking: \"Send booking link to John\"" ++
   "\n⭐ Review: \"Send review link to John\"\n📊 Status: \"Show status for John\"" ++
   "\n📋 List: \"List all leads\"\n\n💡 Identifiers: Name, Email, Phone, ID").toList

/-- Whether the `updateFields` object is empty
(`Object.keys(updateFields).length === 0`). -/
def emptyFields (f : UpdateFields) : Bool :=
  f.email.isNone && f.phone.isNone && f.status.isNone

/-- Comma-join of a key list (`Object.keys(updateFields).join(', ')`). -/
def joinComma : List Str → Str
  | [] => []
  | [k] => k
  | k :: ks => k ++ ", ".toList ++ joinComma ks

/-- The updated field names in their insertion order (email, phone,
status), comma-joined. -/
def joinFields (f : UpdateFields) : Str :=
  joinComma
    ((if f.email.isSome then ["email".toList] else []) ++
     (if f.phone.isSome then ["phone".toList] else []) ++
     (if f.status.isSome then ["status".toList] else []))

/-- `smsController.handleCreateLead`. The reply is built as in the
source: `✅ Created: <name>`, an optional ` (<status>)` suffix when the
parsed status is truthy and not `new`, an optional follow-up line (with
a deferred SMS scheduled when the lead has a phone), and the dashboard
pointer. A falsy (empty) name short-circuits with the name-required
reply before anything is persisted. -/
def handleCreateLead (d : CreateData) (fu : Option Nat) (agentPhone : Str) (db : Db) :
    Except Str Str × Db :=
  if d.name.isEmpty then (.ok nameRequiredMsg, db)
  else
    match createLead d agentPhone db with
    | (.error e, db') => (.error e, db')
    | (.ok L, db') =>
      let r1 := "✅ Created: ".toList ++ L.name
      let r2 :=
        if !d.status.isEmpty && d.status != "new".toList then
          r1 ++ " (".toList ++ d.status ++ ")".toList
        else r1
      match fu with
      | some days =>
        if days != 0 then
          match setFollowUp (natToStr L.lid) .id days agentPhone db' with
          | (.error e, db'') => (.error e, db'')
          | (.ok _, db'') =>
            let r3 := r2 ++ "\n📅 Follow-up in ".toList ++ natToStr days ++ " days".toList
            let db3 :=
              match L.phone with
              | some p => { db'' with scheduled := db''.scheduled ++ [(p, days)] }
              | none => db''
            (.ok (r3 ++ "\n📊 Manage in your CRM dashboard.".toList), db3)
        else (.ok (r2 ++ "\n📊 Manage in your CRM dashboard.".toList), db')
      | none => (.ok (r2 ++ "\n📊 Manage in your CRM dashboard.".toList), db')

/-- `smsController.handleUpdateLead`. -/
def handleUpdateLead (ident : Str) (ty : IdType) (f : UpdateFields) (agentPhone : Str)
    (db : Db) : Except Str Str × Db :=
  if ident.isEmpty then (.ok identRequiredUpdMsg, db)
  else if emptyFields f then (.ok fieldsRequiredMsg, db)
  else
    match updateLead ident ty f agentPhone db with
    | (.error e, db') => (.error e, db')
    | (.ok L, db') =>
      (.ok ("✅ ".toList ++ L.name ++ " updated: ".toList ++ joinFields f ++
            "\n📊 View in CRM dashboard.".toList), db')

/-- `smsController.handleSetFollowUp`; `!followUp.days` also rejects a
zero day count. On success a deferred SMS is scheduled when the lead has
a phone and the reply carries the computed date (`today + days`, dates
being day counters in the model). -/
def handleSetFollowUp (ident : Str) (ty : IdType) (days : Nat) (agentPhone : Str) (db : Db) :
    Except Str Str × Db :=
  if ident.isEmpty then (.ok identRequiredFuMsg, db)
  else if days == 0 then (.ok daysRequiredMsg, db)
  else
    match setFollowUp ident ty days agentPhone db with
    | (.error e, db') => (.error e, db')
    | (.ok L, db') =>
      let db'' :=
        match L.phone with
        | some p => { db' with scheduled := db'.scheduled ++ [(p, days)] }
        | none => db'
      (.ok ("📅 Follow-up scheduled for ".toList ++ L.name ++ " on ".toList ++
            natToStr (db'.now + days) ++ "\n📊 Manage in CRM dashboard.".toList), db'')

/-- `smsController.handleGetLeadStatus`. -/
def handleGetLeadStatus (ident : Str) (ty : IdType) (agentPhone : Str) (db : Db) :
    Except Str Str × Db :=
  if ident.isEmpty then (.ok identRequiredStatusMsg, db)
  else
    match findLeadByIdentifier ident ty agentPhone db with
    | (.error e, db') => (.error e, db')
    | (.ok L, db') =>
      let r := "📋 ".toList ++ L.name ++ "\n".toList ++ "Status: ".toList ++ L.status ++ "\n".toList
      let r := r ++ (match L.email with
        | some e => "Email: ".toList ++ e ++ "\n".toList
        | none => [])
      let r := r ++ (match L.phone with
        | some p => "Phone: ".toList ++ p ++ "\n".toList
        | none => [])
      let r := r ++ (match L.followUps.getLast? with
        | some fue => "📅 Next: ".toList ++ natToStr fue.scheduledDate ++ "\n".toList
        | none => [])
      (.ok (r ++ "\n📊 For full details, visit your CRM dashboard.".toList), db')

/-- `smsController.handleListLeads`: on an empty result the bare
`No leads found.` reply, otherwise the single most recent lead's details
plus the dashboard pointer. -/
def handleListLeads (f : Filter) (agentPhone : Str) (db : Db) : Except Str Str × Db :=
  match listLeads f agentPhone db with
  | (.error e, db') => (.error e, db')
  | (.ok ls, db') =>
    match ls.head? with
    | none => (.ok noLeadsMsg, db')
    | some L =>
      (.ok ("📋 Latest Lead:\n\n".toList ++
            "Name: ".toList ++ L.name ++ "\n".toList ++
            "Status: ".toList ++ L.status ++ "\n".toList ++
            (match L.email with | some e => "Email: ".toList ++ e ++ "\n".toList | none => []) ++
            (match L.phone with | some p => "Phone: ".toList ++ p ++ "\n".toList | none => []) ++
            "ID: ".toList ++ natToStr L.lid ++ "\n".toList ++
            "Created: ".toList ++ natToStr L.createdAt ++ "\n\n".toList ++
            "📊 For full lead list and management, visit the dashboard at your web portal.".toList),
       db')

/-- `smsController.handleSendBookingLink`. The SMS transport and email
channel are modelled as succeeding (their runtime failures are outside
the embedded state); the sent SMS is recorded in the outbox. -/
def handleSendBookingLink (cfg : Config) (ident : Str) (ty : IdType) (agentPhone : Str)
    (db : Db) : Except Str Str × Db :=
  if ident.isEmpty then (.ok ("❌ Specify a lead to send the link to.".toList), db)
  else if linkNotConfigured cfg.calendlyLink ("your-link".toList) then
    (.ok ("❌ Calendly link not configured in .env".toList), db)
  else
    match findLeadByIdentifier ident ty agentPhone db with
    | (.error e, db') => (.error e, db')
    | (.ok L, db') =>
      match L.phone with
      | none => (.ok ("❌ Lead ".toList ++ L.name ++ " has no phone number.".toList), db')
      | some p =>
        let link := cfg.calendlyLink.getD []
        let body := "Hi ".toList ++ firstWord L.name ++
          ", here is the link to book our call: ".toList ++ link
        let db'' := { db' with outbox := db'.outbox ++ [(p, body)] }
        let base := "✅ Booking link sent to ".toList ++ L.name ++ " via SMS (".toList ++
          p ++ ")".toList
        match L.email with
        | some e => (.ok (base ++ " AND Email (".toList ++ e ++ ")".toList), db'')
        | none => (.ok base, db'')

/-- `smsController.handleSendReviewLink`. -/
def handleSendReviewLink (cfg : Config) (ident : Str) (ty : IdType) (agentPhone : Str)
    (db : Db) : Except Str Str × Db :=
  if ident.isEmpty then (.ok ("❌ Specify a lead to send the link to.".toList), db)
  else if linkNotConfigured cfg.googleReviewLink ("your-review-link".toList) then
    (.ok ("❌ Review link not configured in .env".toList), db)
  else
    match findLeadByIdentifier ident ty agentPhone db with
    | (.error e, db') => (.error e, db')
    | (.ok L, db') =>
      match L.phone with
      | none => (.ok ("❌ Lead ".toList ++ L.name ++ " has no phone number.".toList), db')
      | some p =>
        let link := cfg.googleReviewLink.getD []
        let body := "Hi ".toList ++ firstWord L.name ++
          ", thanks for working with us! Please leave a review here: ".toList ++ link
        let db'' := { db' with outbox := db'.outbox ++ [(p, body)] }
        (.ok ("✅ Review link sent to ".toList ++ L.name ++ " (".toList ++ p ++ ")".toList),
         db'')

/-- JS `message.replace(pat, '')`: remove the first occurrence of `pat`. -/
def removeFirstOccur (pat : Str) : Str → Str
  | [] => []
  | c :: cs =>
    if hasPrefixB pat (c :: cs) then (c :: cs).drop pat.length
    else c :: removeFirstOccur pat cs

/-- The controller's per-command `catch` block: pattern-match the thrown
error message into a user-safe reply. -/
def catchErrReply (m : Str) : Str :=
  if jsIncludes m ("MULTIPLE_RECORDS:".toList) then
    "⚠️ ".toList ++ removeFirstOccur ("MULTIPLE_RECORDS: ".toList) m
  else if jsIncludes m ("Lead not found".toList) then
    "❌ Lead not found. Check name/ID and try again.".toList
  else if jsIncludes m ("Agent validation failed".toList) ||
          jsIncludes m ("Agent not found".toList) then
    "❌ Account issue. Contact support for help.".toList
  else if jsIncludes m ("validation".toList) || jsIncludes m ("required".toList) then
    "❌ Missing required info. Check your message format.".toList
  else "❌ Error processing request: ".toList ++ m

/-- `smsController.executeCommand`: dispatch on the command name with a
top-level try/catch that always produces a reply string; state changes
applied before a throw persist (mongoose writes are not transactional). -/
def executeCommand (cfg : Config) (c : Cmd) (agentPhone : Str) (db : Db) : Str × Db :=
  let r :=
    match c with
    | .create_lead d fu => handleCreateLead d fu agentPhone db
    | .update_lead i ty f => handleUpdateLead i ty f agentPhone db
    | .set_followup i ty days => handleSetFollowUp i ty days agentPhone db
    | .get_lead_status i ty => handleGetLeadStatus i ty agentPhone db
    | .list_leads f => handleListLeads f agentPhone db
    | .help => (.ok helpMessage, db)
    | .send_booking_link i ty => handleSendBookingLink cfg i ty agentPhone db
    | .send_review_link i ty => handleSendReviewLink cfg i ty agentPhone db
    | .unknown => (.ok unknownCmdMsg, db)
  match r with
  | (.ok s, db') => (s, db')
  | (.error m, db') => (catchErrReply m, db')

/-- A `ProcessedMessage` ledger record. -/
structure PMsg where
  sid : Str
  sender : Str
  body : Str
  statusP : Str
  response : Str
  command : Option Str
deriving DecidableEq, Repr

/-- Webhook-level state: the record store, the durable processed-message
ledger, and the in-process `sentResponses` set. -/
structure Sys where
  db : Db
  processed : List PMsg
  sentResponses : List Str
deriving DecidableEq, Repr

/-- `ProcessedMessage.findOneAndUpdate({messageSid}, patch)`: rewrite the
first ledger record with the given sid. -/
def updatePMFirst (sid : Str) (g : PMsg → PMsg) : List PMsg → List PMsg
  | [] => []
  | pm :: pms => if pm.sid == sid then g pm :: pms else pm :: updatePMFirst sid g pms

/-- `smsController.handleIncomingSMS` for one inbound webhook delivery
(development path: the production-only signature check is not taken; the
parse is the regex fallback, the AI layer being absent). `none` models
the empty TwiML `<Response></Response>` short-circuit; `some r` models
`<Response><Message>r</Message></Response>`. The in-memory claim is
inserted and the durable `processing` record saved before parsing and
execution; afterwards the record is completed with the reply and command
name. The source clears the in-memory entry only after a 60-second
grace timer, so within closely spaced deliveries it is still present. -/
def handleIncomingSMS (cfg : Config) (sid senderPhone body : Str) (s : Sys) :
    Option Str × Sys :=
  if s.processed.any (fun pm => pm.sid == sid) || s.sentResponses.contains sid then
    (none, s)
  else
    let pm : PMsg :=
      { sid := sid, sender := senderPhone, body := body
        statusP := "processing".toList, response := [], command := none }
    let c := fallbackParse body
    let (resp, db') := executeCommand cfg c senderPhone s.db
    (some resp,
     { db := db'
       processed :=
         updatePMFirst sid
           (fun q => { q with statusP := "completed".toList, response := resp
                              command := some (cmdName c) })
           (s.processed ++ [pm])
       sentResponses := sid :: s.sentResponses })

deriving instance DecidableEq for Except

/-- Program counter of one in-flight `findOrCreateAgent` call in the
concurrency model: `0` before the `findOne`, `1` before the
`Agent.create`, `2` done. -/
structure ProcSt where
  stage : Nat
  result : Option (Except Str Nat)
deriving DecidableEq, Repr

/-- One atomic step of a `findOrCreateAgent` call: the `findOne` read
and the `Agent.create` insert are the two store operations and hence the
two interleaving points; the insert itself is atomic with the unique
index check (see `agentCreate`). -/
def procStep (phone : Str) (db : Db) (p : ProcSt) : Db × ProcSt :=
  match p.stage with
  | 0 =>
    (match db.agents.find? (fun a => a.phoneNumber == phone) with
     | some a => (db, { stage := 2, result := some (.ok a.aid) })
     | none => (db, { p with stage := 1 }))
  | 1 =>
    (match agentCreate phone db with
     | (.ok a, db') => (db', { stage := 2, result := some (.ok a.aid) })
     | (.error e, db') => (db', { stage := 2, result := some (.error e) }))
  | _ => (db, p)

/-- Run two concurrent `findOrCreateAgent` calls under a schedule:
`true` steps the first call, `false` the second. -/
def runSched (phone : Str) : List Bool → Db × ProcSt × ProcSt → Db × ProcSt × ProcSt
  | [], st => st
  | b :: bs, (db, p1, p2) =>
    if b then
      let (db', p1') := procStep phone db p1
      runSched phone bs (db', p1', p2)
    else
      let (db', p2') := procStep phone db p2
      runSched phone bs (db', p1, p2')

/-- Number of stored agents with the given phone number. -/
def countPhone (db : Db) (phone : Str) : Nat :=
  (db.agents.filter (fun a => a.phoneNumber == phone)).length

/-- Modelled from the spec: the record store's native
"upsert-atomic" `findOrCreateAgent(phone)` that §6 and §9 prescribe — a
single atomic operation that returns the existing agent for the phone
number or inserts one, never failing for a concurrent duplicate. This
definition follows the spec's words (the source has no such operation)
and is compared against the interleaved `findOrCreateAgent` model. -/
def specUpsertAgent (phone : Str) (db : Db) : AgentR × Db :=
  match db.agents.find? (fun a => a.phoneNumber == phone) with
  | some a => (a, db)
  | none =>
    let a : AgentR :=
      { aid := db.nextId, name := "SMS Agent".toList, phoneNumber := phone
        email := agentPlaceholderEmail db, password := "temp123".toList }
    (a, { db with agents := db.agents ++ [a], nextId := db.nextId + 1 })

/-- The fresh process state for the concurrency model. -/
def procInit : ProcSt := { stage := 0, result := none }

/-- The empty store. -/
def emptyDb : Db := { agents := [], leads := [], nextId := 0, now := 0, scheduled := [], outbox := [] }

/-- Concrete fixture: a configuration with no outbound links set. -/
def exCfg : Config := { calendlyLink := none, googleReviewLink := none }

/-- Concrete fixture: the test agent's phone number. -/
def exPhone : Str := "+1234567890".toList

/-- Concrete fixture: a registered agent. -/
def exAgent : AgentR :=
  { aid := 0, name := "Test Agent".toList, phoneNumber := exPhone
    email := "test@agent.com".toList, password := "password123".toList }

/-- Concrete fixture: a store holding only the registered agent. -/
def exDbAgent : Db := { emptyDb with agents := [exAgent], nextId := 1 }

/-- Concrete fixture: a John Doe lead owned by the test agent. -/
def exLead (i : Nat) (ph : Str) : Lead :=
  { lid := i, name := "John Doe".toList, email := some ("john@example.com".toList)
    phone := some ph, status := "new".toList, followUps := [], agentId := 0, createdAt := 0 }

/-- Concrete fixture: one lead stored with a separator-formatted phone. -/
def exDbSep : Db := { exDbAgent with leads := [exLead 1 ("555-123-4567".toList)], nextId := 2 }

/-- Concrete fixture: one lead stored with a digits-only phone. -/
def exDbPlain : Db := { exDbAgent with leads := [exLead 1 ("5551234567".toList)], nextId := 2 }

/-- Concrete fixture: two leads named John Doe in the same agent scope. -/
def exDbTwoJohns : Db :=
  { exDbAgent with
    leads := [exLead 1 ("555-123-4567".toList), exLead 2 ("555-999-8888".toList)], nextId := 3 }

/-- Concrete fixture: an update-fields object setting only the status. -/
def exUpdQualified : UpdateFields :=
  { email := none, phone := none, status := some ("qualified".toList) }

/-- Concrete fixture: webhook-level state over the agent-only store. -/
def exSys : Sys := { db := exDbAgent, processed := [], sentResponses := [] }

theorem append_ne_nil_left {l r : Str} (h : l ≠ []) : l ++ r ≠ [] := by
  cases l with
  | nil => exact absurd rfl h
  | cons c cs => simp

theorem isPrefixOf_append_self (p r : Str) : hasPrefixB p (p ++ r) = true := by
  induction p with
  | nil => rfl
  | cons c cs ih => simpa [hasPrefixB] using ih

theorem isPrefixOf_append_right {p l : Str} (r : Str) (h : hasPrefixB p l = true) :
    hasPrefixB p (l ++ r) = true := by
  induction p generalizing l with
  | nil => rfl
  | cons c cs ih =>
    cases l with
    | nil => simp [hasPrefixB] at h
    | cons b bs =>
      simp only [List.cons_append, hasPrefixB, Bool.and_eq_true] at h ⊢
      exact ⟨h.1, ih h.2⟩

theorem isSubstr_of_isPrefixOf {p l : Str} (h : hasPrefixB p l = true) : isSubstr p l = true := by
  cases l with
  | nil =>
    cases p with
    | nil => rfl
    | cons c cs => simp [hasPrefixB] at h
  | cons c cs => simp [isSubstr, h]

theorem isSubstr_cons {p l : Str} (c : Char) (h : isSubstr p l = true) :
    isSubstr p (c :: l) = true := by simp [isSubstr, h]

theorem isSubstr_append_left {p l : Str} (a : Str) (h : isSubstr p l = true) :
    isSubstr p (a ++ l) = true := by
  induction a with
  | nil => exact h
  | cons c cs ih => exact isSubstr_cons c ih

theorem isSubstr_at (p pre post : Str) : isSubstr p (pre ++ (p ++ post)) = true :=
  isSubstr_append_left pre (isSubstr_of_isPrefixOf (isPrefixOf_append_self p post))

theorem removeFirstOccur_append (p r : Str) : removeFirstOccur p (p ++ r) = r := by
  cases h : p ++ r with
  | nil =>
    have hp : p = [] := by cases p <;> simp_all
    have hr : r = [] := by subst hp; simpa using h
    subst hp; subst hr; rfl
  | cons c cs =>
    have hpre : hasPrefixB p (c :: cs) = true := by
      rw [← h]; exact isPrefixOf_append_self p r
    simp only [removeFirstOccur, hpre, if_pos]
    rw [← h]
    exact List.drop_left p r

/-- C2 (counterexample): for the input `"xyz"`, which matches none of the
command triggers, the fallback parser returns the `help` variant, not the
`unknown` variant the claim requires. -/
theorem fallback_unmatched_returns_help_not_unknown_cex :
    fallbackParse ("xyz".toList) = Cmd.help ∧ Cmd.help ≠ Cmd.unknown := by
  exact ⟨by decide, by decide⟩

/-- C2 (amended): the fallback parser is total by construction and, for
every input text whose lower-cased form contains none of the code's
trigger substrings (help; list+lead; add/create; update; follow+up;
status/show; booking+link; review+link), it returns the `help` variant —
the source's universal fallback — never an exception and never any other
variant. -/
theorem fallback_unmatched_input_yields_help (msg : Str)
    (h1 : jsIncludes (lowerStr msg) ("help".toList) = false)
    (h2 : (jsIncludes (lowerStr msg) ("list".toList) &&
           jsIncludes (lowerStr msg) ("lead".toList)) = false)
    (h3 : (jsIncludes (lowerStr msg) ("add".toList) ||
           jsIncludes (lowerStr msg) ("create".toList)) = false)
    (h4 : jsIncludes (lowerStr msg) ("update".toList) = false)
    (h5 : (jsIncludes (lowerStr msg) ("follow".toList) &&
           jsIncludes (lowerStr msg) ("up".toList)) = false)
    (h6 : (jsIncludes (lowerStr msg) ("status".toList) ||
           jsIncludes (lowerStr msg) ("show".toList)) = false)
    (h7 : (jsIncludes (lowerStr msg) ("booking".toList) &&
           jsIncludes (lowerStr msg) ("link".toList)) = false)
    (h8 : (jsIncludes (lowerStr msg) ("review".toList) &&
           jsIncludes (lowerStr msg) ("link".toList)) = false) :
    fallbackParse msg = Cmd.help := by
  unfold fallbackParse
  simp only [h1, h2, h3, h4, h5, h6, h7, h8, if_false, Bool.false_eq_true]

/-- C2 (witness): the amended theorem applied to the input `"zzz"`. -/
theorem fallback_unmatched_input_yields_help_witness :
    fallbackParse ("zzz".toList) = Cmd.help :=
  fallback_unmatched_input_yields_help ("zzz".toList) (by decide) (by decide) (by decide)
    (by decide) (by decide) (by decide) (by decide) (by decide)

/-- C7 (counterexample): `"qqq"` does not equal `"help"` after trimming
and lower-casing, yet the parser returns the `help` variant (the default
branch); and `"I need help with a thing"` merely contains `"help"` yet
also yields the `help` variant — both directions of the claimed
exact-equality characterisation fail. -/
theorem help_substring_cex :
    fallbackParse ("qqq".toList) = Cmd.help ∧
    jsTrim (lowerStr ("qqq".toList)) ≠ "help".toList ∧
    fallbackParse ("I need help with a thing".toList) = Cmd.help ∧
    jsTrim (lowerStr ("I need help with a thing".toList)) ≠ "help".toList := by
  refine ⟨by decide, by decide, by decide, by decide⟩

/-- C7 (amended): the `help` variant is produced whenever the lower-cased
message contains `"help"` as a substring — this test runs first, before
any other trigger — and also as the final fallback for messages matching
no trigger; it is not limited to messages exactly equal to `"help"`. -/
theorem help_contained_yields_help (msg : Str)
    (h : jsIncludes (lowerStr msg) ("help".toList) = true) :
    fallbackParse msg = Cmd.help := by
  unfold fallbackParse
  simp only [h, if_true]

/-- C7 (witness): the amended theorem applied to `"Please help me"`. -/
theorem help_contained_yields_help_witness :
    fallbackParse ("Please help me".toList) = Cmd.help :=
  help_contained_yields_help ("Please help me".toList) (by decide)

/-- C3 (counterexample): for `"Add lead:"` no name segment matches at
all, yet the fallback parser substitutes the placeholder `"Unknown"` and
the Executor persists a lead named `Unknown` instead of replying with the
name-required error — the regex fallback path is not a hard error for
every message without a non-empty name segment. -/
theorem create_lead_absent_name_creates_unknown_cex :
    (executeCommand exCfg (fallbackParse ("Add lead:".toList)) exPhone exDbAgent).2.leads.map
        Lead.name = ["Unknown".toList] ∧
    (executeCommand exCfg (fallbackParse ("Add lead:".toList)) exPhone exDbAgent).1 ≠
      nameRequiredMsg := by
  exact ⟨by decide, by decide⟩

/-- C3 (amended): when the create-lead name regex does match but the
captured segment trims to the empty string (as for a leading empty name
segment, e.g. `"Add lead: ,"`), the parsed name is empty and the
Executor's create_lead transition replies with the name-required error
and persists nothing; when no name segment matches at all, the parser
substitutes the `"Unknown"` placeholder instead and a lead is created. -/
theorem create_lead_empty_name_rejected (cfg : Config) (msg : Str) (d : CreateData)
    (fu : Option Nat) (phone : Str) (db : Db)
    (hp : fallbackParse msg = Cmd.create_lead d fu) (hn : d.name = []) :
    executeCommand cfg (fallbackParse msg) phone db = (nameRequiredMsg, db) := by
  rw [hp]
  unfold executeCommand handleCreateLead
  simp [hn]

/-- C3 (witness): the amended theorem applied to `"Add lead: ,"`, whose
name capture is the single backtracked space and trims to empty. -/
theorem create_lead_empty_name_rejected_witness :
    fallbackParse ("Add lead: ,".toList) =
      Cmd.create_lead { name := [], email := none, phone := none, status := "new".toList }
        none ∧
    executeCommand exCfg (fallbackParse ("Add lead: ,".toList)) exPhone exDbAgent =
      (nameRequiredMsg, exDbAgent) :=
  ⟨by decide,
   create_lead_empty_name_rejected exCfg ("Add lead: ,".toList)
     { name := [], email := none, phone := none, status := "new".toList } none exPhone
     exDbAgent (by decide) rfl⟩

theorem updateBranch_shape {msg : Str} {c : Cmd} (h : updateBranch msg = some c) :
    ∃ i ty, c = Cmd.update_lead i ty (updFieldsOf msg) := by
  unfold updateBranch at h
  split at h
  · simp only [Option.some.injEq] at h
    exact ⟨_, _, h.symm⟩
  · split at h
    · simp only [Option.some.injEq] at h
      exact ⟨_, _, h.symm⟩
    · cases h

theorem followupBranch_shape {msg : Str} {c : Cmd} (h : followupBranch msg = some c) :
    ∃ i ty, c = Cmd.set_followup i ty ((daysMatch msg).getD 1) := by
  unfold followupBranch at h
  cases hfi : followupIdentifier msg with
  | none => rw [hfi] at h; cases h
  | some p =>
    rw [hfi] at h
    simp only [Option.map_some', Option.some.injEq] at h
    exact ⟨p.1, p.2, h.symm⟩

theorem statusBranch_shape {msg : Str} {c : Cmd} (h : statusBranch msg = some c) :
    ∃ i ty, c = Cmd.get_lead_status i ty := by
  unfold statusBranch at h
  cases hfi : statusIdentifier msg with
  | none => rw [hfi] at h; cases h
  | some p =>
    rw [hfi] at h
    simp only [Option.map_some', Option.some.injEq] at h
    exact ⟨p.1, p.2, h.symm⟩

/-- C4 (counterexample): in a set-followup message the clause `in 1
week` is not converted to 7 days — the extraction regex `(\d+)\s+days?`
recognises only the day unit, so the day count falls back to the default
1; and in a create-lead message the clause `in 1 month` is not converted
to 30 days — the unit alternation `(days?|weeks?)` has no month case, so
no follow-up directive is extracted at all. -/
theorem followup_unit_conversion_cex :
    fallbackParse ("Follow up Bob in 1 week".toList) =
      Cmd.set_followup ("Bob in 1 week".toList) IdType.name 1 ∧
    fallbackParse ("Add lead: Jo, follow up in 1 month".toList) =
      Cmd.create_lead
        { name := "Jo".toList, email := none, phone := none, status := "new".toList } none := by
  exact ⟨by decide, by decide⟩

/-- C4 (amended): in a create_lead message the follow-up directive is
exactly the result of the `follow up in <N> (days?|weeks?)` extraction —
`N` for day(s), `N×7` for week(s), and no directive for any other unit
(month is not recognised); in a set_followup message the day count is
exactly the `(\d+)\s+days?` extraction, so only a literal `<N> day(s)`
clause yields `N`, and any other unit or the clause's absence defaults
to 1. -/
theorem followup_days_extraction :
    (∀ msg d fu, fallbackParse msg = Cmd.create_lead d fu →
      fu = (followUpClauseMatch msg).map
        (fun p => if jsIncludes (lowerStr p.2) ("week".toList) then p.1 * 7 else p.1)) ∧
    (∀ msg i ty n, fallbackParse msg = Cmd.set_followup i ty n →
      n = (daysMatch msg).getD 1) := by
  constructor
  · intro msg d fu h
    unfold fallbackParse at h
    simp only [] at h
    split at h
    · exact Cmd.noConfusion h
    split at h
    · split at h <;> exact Cmd.noConfusion h
    split at h
    · unfold createCmd at h
      simp only [] at h
      injection h with h1 h2
      exact h2.symm
    split at h
    · rename_i c' heq
      split at heq
      · obtain ⟨i', ty', rfl⟩ := updateBranch_shape heq
        exact Cmd.noConfusion h
      · cases heq
    split at h
    · rename_i c' heq
      split at heq
      · obtain ⟨i', ty', rfl⟩ := followupBranch_shape heq
        exact Cmd.noConfusion h
      · cases heq
    split at h
    · rename_i c' heq
      split at heq
      · obtain ⟨i', ty', rfl⟩ := statusBranch_shape heq
        exact Cmd.noConfusion h
      · cases heq
    split at h
    · unfold bookingCmd at h
      simp only [] at h
      exact Cmd.noConfusion h
    split at h
    · unfold reviewCmd at h
      exact Cmd.noConfusion h
    exact Cmd.noConfusion h
  · intro msg i ty n h
    unfold fallbackParse at h
    simp only [] at h
    split at h
    · exact Cmd.noConfusion h
    split at h
    · split at h <;> exact Cmd.noConfusion h
    split at h
    · unfold createCmd at h
      simp only [] at h
      exact Cmd.noConfusion h
    split at h
    · rename_i c' heq
      split at heq
      · obtain ⟨i', ty', rfl⟩ := updateBranch_shape heq
        exact Cmd.noConfusion h
      · cases heq
    split at h
    · rename_i c' heq
      split at heq
      · obtain ⟨i', ty', rfl⟩ := followupBranch_shape heq
        injection h with h1 h2 h3
        exact h3.symm
      · cases heq
    split at h
    · rename_i c' heq
      split at heq
      · obtain ⟨i', ty', rfl⟩ := statusBranch_shape heq
        exact Cmd.noConfusion h
      · cases heq
    split at h
    · unfold bookingCmd at h
      simp only [] at h
      exact Cmd.noConfusion h
    split at h
    · unfold reviewCmd at h
      exact Cmd.noConfusion h
    exact Cmd.noConfusion h

/-- C4 (witness): the amended theorem applied to a create-lead message
with `in 2 weeks` (giving 14) and a set-followup message with
`in 5 days` (giving 5). -/
theorem followup_days_extraction_witness :
    (some 14 : Option Nat) =
      (followUpClauseMatch ("Add lead: Jo, follow up in 2 weeks".toList)).map
        (fun p => if jsIncludes (lowerStr p.2) ("week".toList) then p.1 * 7 else p.1) ∧
    (5 : Nat) = (daysMatch ("Follow up Bob in 5 days".toList)).getD 1 :=
  ⟨followup_days_extraction.1 ("Add lead: Jo, follow up in 2 weeks".toList)
      { name := "Jo".toList, email := none, phone := none, status := "new".toList } (some 14)
      (by decide),
   followup_days_extraction.2 ("Follow up Bob in 5 days".toList) ("Bob in 5 days".toList)
      IdType.name 5 (by decide)⟩

/-- C5: phone-type resolution is separator-insensitive in both
directions for `findLeadByIdentifier` (the find/status path), but the
lookup-then-mutate operations `updateLead` and `setFollowUp` strip
non-digits from the query only and match them contiguously against the
stored phone, so a lead stored as `555-123-4567` is found by the query
`5551234567` yet the same query (and even the identical `555-123-4567`)
fails to update it: the service throws `Lead not found` and the Executor
replies with the generic not-found message. This contradicts the
repository's own webhook tests, which update and set follow-ups by phone
on a lead stored with separators. -/
theorem phone_lookup_update_mismatch :
    (findLeadByIdentifier ("5551234567".toList) IdType.phone exPhone exDbSep).1 =
      .ok (exLead 1 ("555-123-4567".toList)) ∧
    (findLeadByIdentifier ("555-123-4567".toList) IdType.phone exPhone exDbPlain).1 =
      .ok (exLead 1 ("5551234567".toList)) ∧
    (updateLead ("5551234567".toList) IdType.phone exUpdQualified exPhone exDbSep).1 =
      .error (notFoundMsg ("5551234567".toList)) ∧
    (updateLead ("555-123-4567".toList) IdType.phone exUpdQualified exPhone exDbSep).1 =
      .error (notFoundMsg ("555-123-4567".toList)) ∧
    (setFollowUp ("5551234567".toList) IdType.phone 3 exPhone exDbSep).1 =
      .error (notFoundMsg ("5551234567".toList)) ∧
    executeCommand exCfg (.update_lead ("5551234567".toList) IdType.phone exUpdQualified)
        exPhone exDbSep =
      ("❌ Lead not found. Check name/ID and try again.".toList, exDbSep) := by
  refine ⟨by decide, by decide, by decide, by decide, by decide, by decide⟩

/-- C8: when an update_lead identifier resolves to zero leads, the
service does throw `Lead not found: <identifier>`, but the Executor's
catch block swallows it and replies with the fixed
`❌ Lead not found. Check name/ID and try again.` — which does not
contain the user-supplied identifier, contradicting the spec and the
repository's own test that expects `Lead not found: NonExistent`. -/
theorem update_notfound_reply_drops_identifier :
    (updateLead ("NonExistent".toList) IdType.name exUpdQualified exPhone exDbAgent).1 =
      .error ("Lead not found: NonExistent".toList) ∧
    executeCommand exCfg (.update_lead ("NonExistent".toList) IdType.name exUpdQualified)
        exPhone exDbAgent =
      ("❌ Lead not found. Check name/ID and try again.".toList, exDbAgent) ∧
    jsIncludes ("❌ Lead not found. Check name/ID and try again.".toList)
      ("NonExistent".toList) = false := by
  refine ⟨by decide, by decide, by decide⟩

theorem agentCreate_countPhone_le (phone : Str) (db : Db)
    (h : countPhone db phone ≤ 1) :
    countPhone (agentCreate phone db).2 phone ≤ 1 := by
  unfold agentCreate
  split
  · simpa using h
  · rename_i ha
    have hnil : db.agents.filter (fun a => a.phoneNumber == phone) = [] := by
      rw [List.filter_eq_nil_iff]
      intro a hm hfa
      exact ha (List.any_eq_true.mpr ⟨a, hm, hfa⟩)
    simp [countPhone, List.filter_append, hnil]

theorem procStep_countPhone_le (phone : Str) (db : Db) (p : ProcSt)
    (h : countPhone db phone ≤ 1) :
    countPhone (procStep phone db p).1 phone ≤ 1 := by
  unfold procStep
  split
  · split <;> simpa using h
  · have hc := agentCreate_countPhone_le phone db h
    rcases hq : agentCreate phone db with ⟨r, db1⟩
    rw [hq] at hc
    cases r <;> simpa [hq] using hc
  · simpa using h

/-- C9 (amended): under every interleaving of two concurrent
`findOrCreateAgent` calls for the same phone number, at most one agent
with that phone ever exists — the unique index on `Agent.phoneNumber`
makes the duplicate insert fail atomically — even though the
implementation is a findOne-then-create sequence rather than an atomic
upsert. -/
theorem findOrCreateAgent_at_most_one_agent (phone : Str) (sched : List Bool) :
    ∀ (db : Db) (p1 p2 : ProcSt), countPhone db phone ≤ 1 →
      countPhone (runSched phone sched (db, p1, p2)).1 phone ≤ 1 := by
  induction sched with
  | nil => intro db p1 p2 h; exact h
  | cons b bs ih =>
    intro db p1 p2 h
    unfold runSched
    cases b with
    | true =>
      have h1 := procStep_countPhone_le phone db p1 h
      rcases hq : procStep phone db p1 with ⟨db1, p1n⟩
      rw [hq] at h1
      simpa [hq] using ih db1 p1n p2 h1
    | false =>
      have h1 := procStep_countPhone_le phone db p2 h
      rcases hq : procStep phone db p2 with ⟨db1, p2n⟩
      rw [hq] at h1
      simpa [hq] using ih db1 p1 p2n h1

/-- C9 (witness): the invariant applied to the empty store under the
fully racing schedule (both reads before both creates). -/
theorem findOrCreateAgent_at_most_one_agent_witness :
    countPhone emptyDb ("+15550001111".toList) ≤ 1 ∧
    countPhone (runSched ("+15550001111".toList) [true, false, true, false]
        (emptyDb, procInit, procInit)).1 ("+15550001111".toList) ≤ 1 :=
  ⟨by decide,
   findOrCreateAgent_at_most_one_agent ("+15550001111".toList) [true, false, true, false]
     emptyDb procInit procInit (by decide)⟩

/-- C9 (counterexample): `findOrCreateAgent` does not behave as an
atomic upsert. In the interleaving where both calls run their `findOne`
before either `Agent.create`, the second call ends with the
duplicate-key error instead of returning the (single) created agent —
whereas the spec-modelled atomic upsert returns the same agent to both
callers. Only one agent is created either way. -/
theorem findOrCreateAgent_race_not_upsert_cex :
    (runSched ("+15550001111".toList) [true, false, true, false]
        (emptyDb, procInit, procInit)).2.2.result = some (.error dupKeyMsg) ∧
    (runSched ("+15550001111".toList) [true, false, true, false]
        (emptyDb, procInit, procInit)).2.1.result = some (.ok 0) ∧
    countPhone (runSched ("+15550001111".toList) [true, false, true, false]
        (emptyDb, procInit, procInit)).1 ("+15550001111".toList) = 1 ∧
    (specUpsertAgent ("+15550001111".toList)
        (specUpsertAgent ("+15550001111".toList) emptyDb).2).1.aid = 0 := by
  refine ⟨by decide, by decide, by decide, by decide⟩

theorem multipleMsg_includes (c : Nat) (ty : IdType) (i : Str) :
    jsIncludes (multipleMsg c ty i) (natToStr c) = true ∧
    jsIncludes (multipleMsg c ty i) (labelOf ty) = true ∧
    jsIncludes (multipleMsg c ty i) i = true := by
  unfold multipleMsg youHaveMsg jsIncludes
  refine ⟨?_, ?_, ?_⟩ <;> simp only [List.append_assoc]
  · exact isSubstr_append_left _ (isSubstr_append_left _
      (isSubstr_of_isPrefixOf (isPrefixOf_append_self _ _)))
  · exact isSubstr_append_left _ (isSubstr_append_left _ (isSubstr_append_left _
      (isSubstr_append_left _ (isSubstr_of_isPrefixOf (isPrefixOf_append_self _ _)))))
  · exact isSubstr_append_left _ (isSubstr_append_left _ (isSubstr_append_left _
      (isSubstr_append_left _ (isSubstr_append_left _ (isSubstr_append_left _
        (isSubstr_of_isPrefixOf (isPrefixOf_append_self _ _)))))))

theorem multipleMsg_includes_tag (c : Nat) (ty : IdType) (i : Str) :
    jsIncludes (multipleMsg c ty i) ("MULTIPLE_RECORDS:".toList) = true := by
  unfold multipleMsg jsIncludes
  exact isSubstr_of_isPrefixOf (isPrefixOf_append_right _ (by decide))

theorem catchErrReply_multiple (c : Nat) (ty : IdType) (i : Str) :
    catchErrReply (multipleMsg c ty i) = "⚠️ ".toList ++ youHaveMsg c ty i := by
  unfold catchErrReply
  rw [multipleMsg_includes_tag]
  simp only [if_true]
  unfold multipleMsg
  rw [removeFirstOccur_append]

theorem findLead_multi (ident : Str) (ty : IdType) (agentPhone : Str) (db : Db)
    (agent : AgentR)
    (hag : db.agents.find? (fun a => a.phoneNumber == agentPhone) = some agent)
    (h2 : 2 ≤ (db.leads.filter (leadMatches true ident ty agent.aid)).length) :
    findLeadByIdentifier ident ty agentPhone db =
      (.error (multipleMsg (db.leads.filter (leadMatches true ident ty agent.aid)).length
        ty ident), db) := by
  have hne : (db.leads.filter (leadMatches true ident ty agent.aid)).isEmpty = false := by
    rcases hfe : db.leads.filter (leadMatches true ident ty agent.aid) with _ | ⟨x, xs⟩
    · rw [hfe] at h2; simp at h2
    · rfl
  unfold findLeadByIdentifier findOrCreateAgent
  rw [hag]
  simp only [hne, Bool.false_eq_true, if_false, h2, if_true]

theorem updateLead_multi (ident : Str) (ty : IdType) (f : UpdateFields) (agentPhone : Str)
    (db : Db) (agent : AgentR)
    (hag : db.agents.find? (fun a => a.phoneNumber == agentPhone) = some agent)
    (h2 : 2 ≤ (db.leads.filter (leadMatches false ident ty agent.aid)).length) :
    updateLead ident ty f agentPhone db =
      (.error (multipleMsg (db.leads.filter (leadMatches false ident ty agent.aid)).length
        ty ident), db) := by
  have hne : (db.leads.filter (leadMatches false ident ty agent.aid)).isEmpty = false := by
    rcases hfe : db.leads.filter (leadMatches false ident ty agent.aid) with _ | ⟨x, xs⟩
    · rw [hfe] at h2; simp at h2
    · rfl
  unfold updateLead findOrCreateAgent
  rw [hag]
  simp only [hne, Bool.false_eq_true, if_false, h2, if_true]

theorem setFollowUp_multi (ident : Str) (ty : IdType) (days : Nat) (agentPhone : Str)
    (db : Db) (agent : AgentR)
    (hag : db.agents.find? (fun a => a.phoneNumber == agentPhone) = some agent)
    (h2 : 2 ≤ (db.leads.filter (leadMatches false ident ty agent.aid)).length) :
    setFollowUp ident ty days agentPhone db =
      (.error (multipleMsg (db.leads.filter (leadMatches false ident ty agent.aid)).length
        ty ident), db) := by
  have hne : (db.leads.filter (leadMatches false ident ty agent.aid)).isEmpty = false := by
    rcases hfe : db.leads.filter (leadMatches false ident ty agent.aid) with _ | ⟨x, xs⟩
    · rw [hfe] at h2; simp at h2
    · rfl
  unfold setFollowUp findOrCreateAgent
  rw [hag]
  simp only [hne, Bool.false_eq_true, if_false, h2, if_true]


/-- C6: whenever a resolution query matches more than one lead in the
requesting agent's scope, `findLeadByIdentifier` fails with the
`MULTIPLE_RECORDS` (Ambiguous) error carrying the match count, the
human-readable identifier-type label and the identifier — never silently
picking one — and the Executor's update/followup/status paths reply with
the ambiguity message containing the literal count and the identifier,
leaving the store unmutated. (The mutate paths run their duplicate check
with their own, contiguous-digit phone semantics, hence the separate
match-count hypothesis for them.) -/
theorem ambiguous_resolution_reported (cfg : Config) (db : Db) (ident : Str) (ty : IdType)
    (agentPhone : Str) (agent : AgentR) (f : UpdateFields) (days : Nat)
    (hag : db.agents.find? (fun a => a.phoneNumber == agentPhone) = some agent)
    (hf2 : 2 ≤ (db.leads.filter (leadMatches true ident ty agent.aid)).length)
    (hm2 : 2 ≤ (db.leads.filter (leadMatches false ident ty agent.aid)).length)
    (hfld : emptyFields f = false) (hident : ident ≠ []) (hdays : days ≠ 0) :
    findLeadByIdentifier ident ty agentPhone db =
      (.error (multipleMsg (db.leads.filter (leadMatches true ident ty agent.aid)).length
        ty ident), db) ∧
    jsIncludes (multipleMsg (db.leads.filter (leadMatches true ident ty agent.aid)).length
      ty ident) (natToStr (db.leads.filter (leadMatches true ident ty agent.aid)).length) =
      true ∧
    jsIncludes (multipleMsg (db.leads.filter (leadMatches true ident ty agent.aid)).length
      ty ident) (labelOf ty) = true ∧
    jsIncludes (multipleMsg (db.leads.filter (leadMatches true ident ty agent.aid)).length
      ty ident) ident = true ∧
    executeCommand cfg (.update_lead ident ty f) agentPhone db =
      ("⚠️ ".toList ++ youHaveMsg
        (db.leads.filter (leadMatches false ident ty agent.aid)).length ty ident, db) ∧
    executeCommand cfg (.set_followup ident ty days) agentPhone db =
      ("⚠️ ".toList ++ youHaveMsg
        (db.leads.filter (leadMatches false ident ty agent.aid)).length ty ident, db) ∧
    executeCommand cfg (.get_lead_status ident ty) agentPhone db =
      ("⚠️ ".toList ++ youHaveMsg
        (db.leads.filter (leadMatches true ident ty agent.aid)).length ty ident, db) := by
  have hid : ident.isEmpty = false := by
    cases ident with
    | nil => exact absurd rfl hident
    | cons a l => rfl
  have hd0 : (days == 0) = false := by
    cases days with
    | zero => exact absurd rfl hdays
    | succ n => rfl
  refine ⟨findLead_multi ident ty agentPhone db agent hag hf2,
    (multipleMsg_includes _ ty ident).1,
    (multipleMsg_includes _ ty ident).2.1,
    (multipleMsg_includes _ ty ident).2.2, ?_, ?_, ?_⟩
  · unfold executeCommand handleUpdateLead
    simp only [hid, Bool.false_eq_true, if_false, hfld]
    rw [updateLead_multi ident ty f agentPhone db agent hag hm2]
    dsimp only
    rw [catchErrReply_multiple]
  · unfold executeCommand handleSetFollowUp
    simp only [hid, Bool.false_eq_true, if_false, hd0]
    rw [setFollowUp_multi ident ty days agentPhone db agent hag hm2]
    dsimp only
    rw [catchErrReply_multiple]
  · unfold executeCommand handleGetLeadStatus
    simp only [hid, Bool.false_eq_true, if_false]
    rw [findLead_multi ident ty agentPhone db agent hag hf2]
    dsimp only
    rw [catchErrReply_multiple]


/-- C6 (witness): two leads named John Doe in one agent scope; the
update path replies with the count-and-identifier-bearing ambiguity
message and leaves the store unchanged. -/
theorem ambiguous_resolution_reported_witness :
    executeCommand exCfg (Cmd.update_lead ("John Doe".toList) IdType.name exUpdQualified)
        exPhone exDbTwoJohns =
      ("⚠️ ".toList ++ youHaveMsg
        ((exDbTwoJohns.leads.filter
          (leadMatches false ("John Doe".toList) IdType.name exAgent.aid)).length)
        IdType.name ("John Doe".toList), exDbTwoJohns) :=
  (ambiguous_resolution_reported exCfg exDbTwoJohns ("John Doe".toList) IdType.name exPhone
    exAgent exUpdQualified 3 (by decide) (by decide) (by decide) (by decide) (by decide)
    (by decide)).2.2.2.2.1

theorem handleCreateLead_ok_ne (d : CreateData) (fu : Option Nat) (ap : Str) (db : Db)
    {s : Str} {db2 : Db} (h : handleCreateLead d fu ap db = (.ok s, db2)) : s ≠ [] := by
  unfold handleCreateLead at h
  split at h
  · simp only [Prod.mk.injEq, Except.ok.injEq] at h
    rw [← h.1]
    decide
  · rcases hc : createLead d ap db with ⟨rc, dbc⟩
    rw [hc] at h
    cases rc with
    | error e => simp at h
    | ok L =>
      dsimp only at h
      cases fu with
      | none =>
        simp only [Prod.mk.injEq, Except.ok.injEq] at h
        rw [← h.1]
        split
        all_goals simp only [List.append_assoc]
        all_goals exact append_ne_nil_left (by decide)
      | some days =>
        dsimp only at h
        split at h
        · rcases hsf : setFollowUp (natToStr L.lid) IdType.id days ap dbc with ⟨rs, dbs⟩
          rw [hsf] at h
          cases rs with
          | error e => simp at h
          | ok M =>
            dsimp only at h
            simp only [Prod.mk.injEq, Except.ok.injEq] at h
            rw [← h.1]
            simp only [List.append_assoc]
            split
            all_goals simp only [List.append_assoc]
            all_goals exact append_ne_nil_left (by decide)
        · simp only [Prod.mk.injEq, Except.ok.injEq] at h
          rw [← h.1]
          split
          all_goals simp only [List.append_assoc]
          all_goals exact append_ne_nil_left (by decide)


theorem handleUpdateLead_ok_ne (i : Str) (ty : IdType) (f : UpdateFields) (ap : Str)
    (db : Db) {s : Str} {db2 : Db} (h : handleUpdateLead i ty f ap db = (.ok s, db2)) :
    s ≠ [] := by
  unfold handleUpdateLead at h
  split at h
  · simp only [Prod.mk.injEq, Except.ok.injEq] at h
    rw [← h.1]; decide
  · split at h
    · simp only [Prod.mk.injEq, Except.ok.injEq] at h
      rw [← h.1]; decide
    · rcases hc : updateLead i ty f ap db with ⟨rc, dbc⟩
      rw [hc] at h
      cases rc with
      | error e => simp at h
      | ok L =>
        dsimp only at h
        simp only [Prod.mk.injEq, Except.ok.injEq] at h
        rw [← h.1]
        simp only [List.append_assoc]
        exact append_ne_nil_left (by decide)

theorem handleSetFollowUp_ok_ne (i : Str) (ty : IdType) (days : Nat) (ap : Str) (db : Db)
    {s : Str} {db2 : Db} (h : handleSetFollowUp i ty days ap db = (.ok s, db2)) : s ≠ [] := by
  unfold handleSetFollowUp at h
  split at h
  · simp only [Prod.mk.injEq, Except.ok.injEq] at h
    rw [← h.1]; decide
  · split at h
    · simp only [Prod.mk.injEq, Except.ok.injEq] at h
      rw [← h.1]; decide
    · rcases hc : setFollowUp i ty days ap db with ⟨rc, dbc⟩
      rw [hc] at h
      cases rc with
      | error e => simp at h
      | ok L =>
        dsimp only at h
        simp only [Prod.mk.injEq, Except.ok.injEq] at h
        rw [← h.1]
        simp only [List.append_assoc]
        exact append_ne_nil_left (by decide)

theorem handleGetLeadStatus_ok_ne (i : Str) (ty : IdType) (ap : Str) (db : Db)
    {s : Str} {db2 : Db} (h : handleGetLeadStatus i ty ap db = (.ok s, db2)) : s ≠ [] := by
  unfold handleGetLeadStatus at h
  split at h
  · simp only [Prod.mk.injEq, Except.ok.injEq] at h
    rw [← h.1]; decide
  · rcases hc : findLeadByIdentifier i ty ap db with ⟨rc, dbc⟩
    rw [hc] at h
    cases rc with
    | error e => simp at h
    | ok L =>
      dsimp only at h
      simp only [Prod.mk.injEq, Except.ok.injEq] at h
      rw [← h.1]
      simp only [List.append_assoc]
      exact append_ne_nil_left (by decide)

theorem handleListLeads_ok_ne (f : Filter) (ap : Str) (db : Db)
    {s : Str} {db2 : Db} (h : handleListLeads f ap db = (.ok s, db2)) : s ≠ [] := by
  unfold handleListLeads at h
  rcases hc : listLeads f ap db with ⟨rc, dbc⟩
  rw [hc] at h
  cases rc with
  | error e => simp at h
  | ok ls =>
    dsimp only at h
    cases hx : ls.head? with
    | none =>
      rw [hx] at h
      simp only [Prod.mk.injEq, Except.ok.injEq] at h
      rw [← h.1]; decide
    | some L =>
      rw [hx] at h
      simp only [Prod.mk.injEq, Except.ok.injEq] at h
      rw [← h.1]
      simp only [List.append_assoc]
      exact append_ne_nil_left (by decide)

theorem handleSendBookingLink_ok_ne (cfg : Config) (i : Str) (ty : IdType) (ap : Str)
    (db : Db) {s : Str} {db2 : Db}
    (h : handleSendBookingLink cfg i ty ap db = (.ok s, db2)) : s ≠ [] := by
  unfold handleSendBookingLink at h
  split at h
  · simp only [Prod.mk.injEq, Except.ok.injEq] at h
    rw [← h.1]; decide
  · split at h
    · simp only [Prod.mk.injEq, Except.ok.injEq] at h
      rw [← h.1]; decide
    · rcases hc : findLeadByIdentifier i ty ap db with ⟨rc, dbc⟩
      rw [hc] at h
      cases rc with
      | error e => simp at h
      | ok L =>
        dsimp only at h
        cases hp : L.phone with
        | none =>
          rw [hp] at h
          dsimp only at h
          simp only [Prod.mk.injEq, Except.ok.injEq] at h
          rw [← h.1]
          simp only [List.append_assoc]
          exact append_ne_nil_left (by decide)
        | some p =>
          rw [hp] at h
          dsimp only at h
          cases he : L.email with
          | none =>
            rw [he] at h
            dsimp only at h
            simp only [Prod.mk.injEq, Except.ok.injEq] at h
            rw [← h.1]
            simp only [List.append_assoc]
            exact append_ne_nil_left (by decide)
          | some e =>
            rw [he] at h
            dsimp only at h
            simp only [Prod.mk.injEq, Except.ok.injEq] at h
            rw [← h.1]
            simp only [List.append_assoc]
            exact append_ne_nil_left (by decide)

theorem handleSendReviewLink_ok_ne (cfg : Config) (i : Str) (ty : IdType) (ap : Str)
    (db : Db) {s : Str} {db2 : Db}
    (h : handleSendReviewLink cfg i ty ap db = (.ok s, db2)) : s ≠ [] := by
  unfold handleSendReviewLink at h
  split at h
  · simp only [Prod.mk.injEq, Except.ok.injEq] at h
    rw [← h.1]; decide
  · split at h
    · simp only [Prod.mk.injEq, Except.ok.injEq] at h
      rw [← h.1]; decide
    · rcases hc : findLeadByIdentifier i ty ap db with ⟨rc, dbc⟩
      rw [hc] at h
      cases rc with
      | error e => simp at h
      | ok L =>
        dsimp only at h
        cases hp : L.phone with
        | none =>
          rw [hp] at h
          dsimp only at h
          simp only [Prod.mk.injEq, Except.ok.injEq] at h
          rw [← h.1]
          simp only [List.append_assoc]
          exact append_ne_nil_left (by decide)
        | some p =>
          rw [hp] at h
          dsimp only at h
          simp only [Prod.mk.injEq, Except.ok.injEq] at h
          rw [← h.1]
          simp only [List.append_assoc]
          exact append_ne_nil_left (by decide)

theorem catchErrReply_ne (m : Str) : catchErrReply m ≠ [] := by
  unfold catchErrReply
  split
  · exact append_ne_nil_left (by decide)
  · split
    · decide
    · split
      · decide
      · split
        · decide
        · exact append_ne_nil_left (by decide)

theorem executeCommand_reply_ne (cfg : Config) (c : Cmd) (ap : Str) (db : Db) :
    (executeCommand cfg c ap db).1 ≠ [] := by
  cases c with
  | help =>
    show helpMessage ≠ []
    decide
  | unknown =>
    show unknownCmdMsg ≠ []
    decide
  | create_lead d fu =>
    rcases hh : handleCreateLead d fu ap db with ⟨r, dbr⟩
    cases r with
    | ok s => simpa [executeCommand, hh] using handleCreateLead_ok_ne d fu ap db hh
    | error m => simpa [executeCommand, hh] using catchErrReply_ne m
  | update_lead i ty f =>
    rcases hh : handleUpdateLead i ty f ap db with ⟨r, dbr⟩
    cases r with
    | ok s => simpa [executeCommand, hh] using handleUpdateLead_ok_ne i ty f ap db hh
    | error m => simpa [executeCommand, hh] using catchErrReply_ne m
  | set_followup i ty days =>
    rcases hh : handleSetFollowUp i ty days ap db with ⟨r, dbr⟩
    cases r with
    | ok s => simpa [executeCommand, hh] using handleSetFollowUp_ok_ne i ty days ap db hh
    | error m => simpa [executeCommand, hh] using catchErrReply_ne m
  | get_lead_status i ty =>
    rcases hh : handleGetLeadStatus i ty ap db with ⟨r, dbr⟩
    cases r with
    | ok s => simpa [executeCommand, hh] using handleGetLeadStatus_ok_ne i ty ap db hh
    | error m => simpa [executeCommand, hh] using catchErrReply_ne m
  | list_leads f =>
    rcases hh : handleListLeads f ap db with ⟨r, dbr⟩
    cases r with
    | ok s => simpa [executeCommand, hh] using handleListLeads_ok_ne f ap db hh
    | error m => simpa [executeCommand, hh] using catchErrReply_ne m
  | send_booking_link i ty =>
    rcases hh : handleSendBookingLink cfg i ty ap db with ⟨r, dbr⟩
    cases r with
    | ok s => simpa [executeCommand, hh] using handleSendBookingLink_ok_ne cfg i ty ap db hh
    | error m => simpa [executeCommand, hh] using catchErrReply_ne m
  | send_review_link i ty =>
    rcases hh : handleSendReviewLink cfg i ty ap db with ⟨r, dbr⟩
    cases r with
    | ok s => simpa [executeCommand, hh] using handleSendReviewLink_ok_ne cfg i ty ap db hh
    | error m => simpa [executeCommand, hh] using catchErrReply_ne m


theorem updatePMFirst_append_notseen (sid : Str) (g : PMsg → PMsg) (l : List PMsg)
    (pm0 : PMsg) (hl : l.any (fun pm => pm.sid == sid) = false)
    (h0 : (pm0.sid == sid) = true) :
    updatePMFirst sid g (l ++ [pm0]) = l ++ [g pm0] := by
  induction l with
  | nil => simp [updatePMFirst, h0]
  | cons pm pms ih =>
    simp only [List.any_cons, Bool.or_eq_false_iff] at hl
    simp [updatePMFirst, hl.1, ih hl.2]

/-- C1: delivering a fresh message identifier produces a reply with a
non-empty message text and exactly one durable ProcessedMessage record
for that identifier; delivering the same identifier again immediately
afterwards short-circuits with the empty TwiML reply (no message text)
and leaves the whole state — ledger included — unchanged, so no second
mutation and no second non-empty reply occur. -/
theorem sms_duplicate_delivery_idempotent (cfg : Config) (sid sender body : Str) (s : Sys)
    (h1 : s.processed.any (fun pm => pm.sid == sid) = false)
    (h2 : s.sentResponses.contains sid = false) :
    (∃ t, (handleIncomingSMS cfg sid sender body s).1 = some t ∧ t ≠ []) ∧
    ((handleIncomingSMS cfg sid sender body s).2.processed.filter
      (fun pm => pm.sid == sid)).length = 1 ∧
    handleIncomingSMS cfg sid sender body (handleIncomingSMS cfg sid sender body s).2 =
      (none, (handleIncomingSMS cfg sid sender body s).2) := by
  rcases he : executeCommand cfg (fallbackParse body) sender s.db with ⟨resp, db1⟩
  have hne : resp ≠ [] := by
    have hx := executeCommand_reply_ne cfg (fallbackParse body) sender s.db
    rw [he] at hx
    exact hx
  have hrun : handleIncomingSMS cfg sid sender body s =
      (some resp,
       { db := db1
         processed := s.processed ++
           [{ sid := sid, sender := sender, body := body, statusP := "completed".toList
              response := resp, command := some (cmdName (fallbackParse body)) }]
         sentResponses := sid :: s.sentResponses }) := by
    unfold handleIncomingSMS
    simp only [h1, h2, Bool.or_self, Bool.false_eq_true, if_false]
    rw [he]
    dsimp only
    rw [updatePMFirst_append_notseen sid _ s.processed _ h1 (by simp)]
  refine ⟨⟨resp, by rw [hrun], hne⟩, ?_, ?_⟩
  · rw [hrun]
    simp only [List.filter_append]
    have hfe : s.processed.filter (fun pm => pm.sid == sid) = [] :=
      List.filter_eq_nil_iff.mpr (fun pm hm => List.any_eq_false.mp h1 pm hm)
    rw [hfe]
    simp
  · rw [hrun]
    conv in handleIncomingSMS cfg sid sender body _ => unfold handleIncomingSMS
    simp [List.any_append]

/-- C1 (witness): the double-delivery theorem applied to a concrete
fresh webhook state and the message `"List all leads"`. -/
theorem sms_duplicate_delivery_idempotent_witness :
    (exSys.processed.any (fun pm => pm.sid == ("SM1".toList)) = false ∧
     exSys.sentResponses.contains ("SM1".toList) = false) ∧
    ((∃ t, (handleIncomingSMS exCfg ("SM1".toList) exPhone ("List all leads".toList)
        exSys).1 = some t ∧ t ≠ []) ∧
     ((handleIncomingSMS exCfg ("SM1".toList) exPhone ("List all leads".toList)
        exSys).2.processed.filter (fun pm => pm.sid == ("SM1".toList))).length = 1 ∧
     handleIncomingSMS exCfg ("SM1".toList) exPhone ("List all leads".toList)
        (handleIncomingSMS exCfg ("SM1".toList) exPhone ("List all leads".toList) exSys).2 =
       (none, (handleIncomingSMS exCfg ("SM1".toList) exPhone ("List all leads".toList)
         exSys).2)) :=
  ⟨⟨by decide, by decide⟩,
   sms_duplicate_delivery_idempotent exCfg ("SM1".toList) exPhone ("List all leads".toList)
     exSys (by decide) (by decide)⟩

theorem scanFirst_some {α : Type} {f : Str → Option α} {l : Str} {r : α}
    (h : scanFirst f l = some r) : ∃ l2, f l2 = some r := by
  induction l with
  | nil => exact ⟨[], h⟩
  | cons c cs ih =>
    unfold scanFirst at h
    cases hf : f (c :: cs) with
    | some x =>
      rw [hf] at h
      injection h with hx
      exact ⟨c :: cs, by rw [hf, hx]⟩
    | none =>
      rw [hf] at h
      exact ih h

theorem greedyTokensLoop_prefix (fuel : Nat) :
    ∀ (acc l : Str), ∃ s2, greedyTokensLoop fuel acc l = acc ++ s2 := by
  induction fuel with
  | zero => intro acc l; exact ⟨[], by simp [greedyTokensLoop]⟩
  | succ n ih =>
    intro acc l
    unfold greedyTokensLoop
    simp only []
    split
    · exact ⟨[], by simp⟩
    · split
      · rename_i t r ht
        obtain ⟨s2, hs2⟩ := ih (acc ++ l.takeWhile (isWs ·) ++ t) r
        exact ⟨l.takeWhile (isWs ·) ++ t ++ s2, by rw [hs2]; simp [List.append_assoc]⟩
      · exact ⟨[], by simp⟩

theorem lazyTokensLoop_prefix (fuel : Nat) :
    ∀ {acc l cap : Str}, lazyTokensLoop fuel acc l = some cap → ∃ s2, cap = acc ++ s2 := by
  induction fuel with
  | zero => intro acc l cap h; cases h
  | succ n ih =>
    intro acc l cap h
    unfold lazyTokensLoop at h
    simp only [] at h
    split at h
    · cases h
    · split at h
      · injection h with hx
        exact ⟨[], by rw [← hx]; simp⟩
      · split at h
        · rename_i t r2 ht
          obtain ⟨s2, hs2⟩ := ih h
          exact ⟨l.takeWhile (isWs ·) ++ t ++ s2, by rw [hs2]; simp [List.append_assoc]⟩
        · cases h

theorem tok1_head {l t r : Str} (h : tok1 l = some (t, r)) :
    ∃ c t2, t = c :: t2 ∧ isTokChar c = true := by
  unfold tok1 at h
  simp only [] at h
  split at h
  · cases h
  · rename_i hne
    simp only [Option.some.injEq, Prod.mk.injEq] at h
    cases ht : l.takeWhile (isTokChar ·) with
    | nil => rw [ht] at hne; exact absurd rfl hne
    | cons c t2 =>
      refine ⟨c, t2, ?_, ?_⟩
      · rw [← h.1, ht]
      · exact List.mem_takeWhile_imp (ht ▸ List.mem_cons_self c t2)

theorem isTokChar_not_ws {c : Char} (h : isTokChar c = true) : isWs c = false := by
  unfold isTokChar at h
  simp only [Bool.and_eq_true, Bool.not_eq_true'] at h
  exact h.2

theorem jsTrim_cons_ne {c : Char} (l : Str) (hc : isWs c = false) : jsTrim (c :: l) ≠ [] := by
  unfold jsTrim
  rw [List.dropWhile_cons]
  simp only [hc, Bool.false_eq_true, if_false]
  intro hcontra
  have h2 : (c :: l).reverse.dropWhile (isWs ·) = [] := by
    have h3 := congrArg List.reverse hcontra
    simpa using h3
  have h4 : isWs c = true := List.dropWhile_eq_nil_iff.mp h2 c (by simp)
  rw [hc] at h4
  cases h4

theorem tryUpdateLazy_head {l cap : Str} (h : tryUpdateLazy l = some cap) :
    ∃ c t2, cap = c :: t2 ∧ isTokChar c = true := by
  unfold tryUpdateLazy at h
  rcases h1 : stripPrefixCI ("update".toList) l with _ | r0
  · rw [h1] at h; cases h
  rw [h1] at h
  simp only [Option.bind_eq_bind, Option.some_bind] at h
  rcases h2 : ws1 r0 with _ | r1
  · rw [h2] at h; cases h
  rw [h2] at h
  simp only [Option.bind_eq_bind, Option.some_bind] at h
  rcases h3 : stripPrefixCI ("lead".toList) r1 with _ | r2a
  · rw [h3] at h; cases h
  rw [h3] at h
  simp only [Option.bind_eq_bind, Option.some_bind] at h
  rcases h4 : ws1 r2a with _ | r2
  · rw [h4] at h; cases h
  rw [h4] at h
  simp only [Option.bind_eq_bind, Option.some_bind] at h
  rcases h5 : tok1 r2 with _ | ⟨t1, r3⟩
  · rw [h5] at h; cases h
  rw [h5] at h
  simp only [Option.bind_eq_bind, Option.some_bind] at h
  obtain ⟨s2, hs2⟩ := lazyTokensLoop_prefix (r3.length + 1) h
  obtain ⟨c, t2, hct, hc⟩ := tok1_head h5
  exact ⟨c, t2 ++ s2, by rw [hs2, hct]; rfl, hc⟩

theorem greedyTokens_head {l cap : Str} (h : greedyTokens l = some cap) :
    ∃ c t2, cap = c :: t2 ∧ isTokChar c = true := by
  unfold greedyTokens at h
  rcases h5 : tok1 l with _ | ⟨t1, r⟩
  · rw [h5] at h; cases h
  rw [h5] at h
  simp only [Option.some.injEq] at h
  obtain ⟨s2, hs2⟩ := greedyTokensLoop_prefix r.length t1 r
  obtain ⟨c, t2, hct, hc⟩ := tok1_head h5
  exact ⟨c, t2 ++ s2, by rw [← h, hs2, hct]; rfl, hc⟩

theorem tryUpdateGreedy_head {l cap : Str} (h : tryUpdateGreedy l = some cap) :
    ∃ c t2, cap = c :: t2 ∧ isTokChar c = true := by
  unfold tryUpdateGreedy at h
  rcases h1 : stripPrefixCI ("update".toList) l with _ | r0
  · rw [h1] at h; cases h
  rw [h1] at h
  simp only [Option.bind_eq_bind, Option.some_bind] at h
  rcases h2 : ws1 r0 with _ | r1
  · rw [h2] at h; cases h
  rw [h2] at h
  simp only [Option.bind_eq_bind, Option.some_bind] at h
  rcases h3 : stripPrefixCI ("lead".toList) r1 with _ | r2a
  · rw [h3] at h; cases h
  rw [h3] at h
  simp only [Option.bind_eq_bind, Option.some_bind] at h
  rcases h4 : ws1 r2a with _ | r2
  · rw [h4] at h; cases h
  rw [h4] at h
  simp only [Option.bind_eq_bind, Option.some_bind] at h
  exact greedyTokens_head h

theorem updateBranch_inv {msg : Str} {i : Str} {ty : IdType} {f : UpdateFields}
    (h : updateBranch msg = some (Cmd.update_lead i ty f)) :
    f = updFieldsOf msg ∧ i ≠ [] := by
  unfold updateBranch at h
  split at h
  · rename_i cap hcap
    simp only [Option.some.injEq] at h
    injection h with hi hty hf
    obtain ⟨l2, hl2⟩ := scanFirst_some hcap
    obtain ⟨c, t2, hct, hc⟩ := tryUpdateLazy_head hl2
    refine ⟨hf.symm, ?_⟩
    rw [← hi, hct]
    exact jsTrim_cons_ne t2 (isTokChar_not_ws hc)
  · split at h
    · rename_i cap hcap
      simp only [Option.some.injEq] at h
      injection h with hi hty hf
      obtain ⟨l2, hl2⟩ := scanFirst_some hcap
      obtain ⟨c, t2, hct, hc⟩ := tryUpdateGreedy_head hl2
      refine ⟨hf.symm, ?_⟩
      rw [← hi, hct]
      exact jsTrim_cons_ne t2 (isTokChar_not_ws hc)
    · cases h

theorem fallbackParse_update_inv {msg : Str} {i : Str} {ty : IdType} {f : UpdateFields}
    (h : fallbackParse msg = Cmd.update_lead i ty f) :
    updateBranch msg = some (Cmd.update_lead i ty f) := by
  unfold fallbackParse at h
  simp only [] at h
  split at h
  · exact Cmd.noConfusion h
  split at h
  · split at h <;> exact Cmd.noConfusion h
  split at h
  · unfold createCmd at h
    simp only [] at h
    exact Cmd.noConfusion h
  split at h
  · rename_i c2 heq
    split at heq
    · rw [h] at heq
      exact heq
    · cases heq
  split at h
  · rename_i c2 heq
    split at heq
    · obtain ⟨i2, ty2, rfl⟩ := followupBranch_shape heq
      exact Cmd.noConfusion h
    · cases heq
  split at h
  · rename_i c2 heq
    split at heq
    · obtain ⟨i2, ty2, rfl⟩ := statusBranch_shape heq
      exact Cmd.noConfusion h
    · cases heq
  split at h
  · unfold bookingCmd at h
    simp only [] at h
    exact Cmd.noConfusion h
  split at h
  · unfold reviewCmd at h
    exact Cmd.noConfusion h
  exact Cmd.noConfusion h

/-- C10: for every message the fallback parser classifies as
update_lead, the `updateFields` object is exactly the output of the
three shape-checking regexes (email shape, 3-3-4 phone shape, status
enum member) — a supplied value that fails its field's shape is silently
dropped; the extracted identifier is never empty; and when no supplied
value matched its shape (`updateFields` empty) the Executor replies
with the fields-required error and leaves the store untouched. -/
theorem update_fields_shape_filtered (cfg : Config) (msg : Str) (i : Str) (ty : IdType)
    (f : UpdateFields) (hp : fallbackParse msg = Cmd.update_lead i ty f) :
    f = updFieldsOf msg ∧ i ≠ [] ∧
    (emptyFields f = true →
      ∀ phone db, executeCommand cfg (Cmd.update_lead i ty f) phone db =
        (fieldsRequiredMsg, db)) := by
  obtain ⟨hf, hi⟩ := updateBranch_inv (fallbackParse_update_inv hp)
  refine ⟨hf, hi, ?_⟩
  intro he phone db
  have hie : i.isEmpty = false := by
    cases i with
    | nil => exact absurd rfl hi
    | cons a l => rfl
  unfold executeCommand handleUpdateLead
  simp only [hie, Bool.false_eq_true, if_false, he, if_true]

/-- C10 (witness): `"Update lead John email notanemail"` parses as
update_lead with an empty `updateFields` (the value fails the email
shape), and the Executor replies with the fields-required error leaving
the store unchanged. -/
theorem update_fields_shape_filtered_witness :
    ({ email := none, phone := none, status := none } : UpdateFields) =
      updFieldsOf ("Update lead John email notanemail".toList) ∧
    ("John".toList ≠ []) ∧
    executeCommand exCfg
      (Cmd.update_lead ("John".toList) IdType.name
        { email := none, phone := none, status := none }) exPhone exDbAgent =
      (fieldsRequiredMsg, exDbAgent) := by
  obtain ⟨w1, w2, w3⟩ := update_fields_shape_filtered exCfg
    ("Update lead John email notanemail".toList) ("John".toList) IdType.name
    { email := none, phone := none, status := none } (by decide)
  exact ⟨w1, w2, w3 (by decide) exPhone exDbAgent⟩

end Crm
